import Mathlib

/-! # Branch compilation (Core/MIPS/x86/CompBranch.cpp) and the POSIX memory arena
(Common/MemArenaPosix.cpp)

The x86 branch compiler is embedded as state passing over the compiler state `js`
and the stream of emitter calls it performs.  The host emitter, the register cache,
`CompileDelaySlot` and `WriteExit` are external to the two files: every call to
them is recorded as one event of the emitted stream, and what the external
delay-slot compiler does to `js` is a parameter (`Ext`).
-/

set_option linter.unusedVariables false

namespace MIPSComp

/-! ## Machine words -/

/-- Number of values of a `u32`. -/
def U32 : Nat := 4294967296

/-- Addition of two `u32` values. -/
def u32add (a b : Nat) : Nat := (a + b) % U32

/-- Conversion of an `int` to `u32`. -/
def toU32 (i : Int) : Nat := (i % 4294967296).toNat

/-- The conversion `(signed short)(v)` of an unsigned value. -/
def signedShort (v : Nat) : Int :=
  if v % 65536 < 32768 then ((v % 65536 : Nat) : Int) else ((v % 65536 : Nat) : Int) - 65536

/-- The shift `<< 2` of an `int` that stays in range. -/
def shl2 (i : Int) : Int := i * 4

/-- The macro `_RS`. -/
def _RS (op : Nat) : Nat := (op >>> 21) &&& 0x1F

/-- The macro `_RT`. -/
def _RT (op : Nat) : Nat := (op >>> 16) &&& 0x1F

/-- Index of the link register, `MIPS_REG_RA`. -/
def MIPS_REG_RA : Nat := 31

/-! ## The emitted stream -/

/-- The condition codes of `Gen::CCFlags` that the branch compiler passes to `J_CC`. -/
inductive CCFlags where
  | CC_Z | CC_NZ | CC_L | CC_GE | CC_LE | CC_G
  deriving DecidableEq, Repr

/-- The fixed memory cells the emitted code addresses with `M(...)`. -/
inductive Cell where
  | fpcond          -- mips_->fpcond
  | vfpuCC          -- mips_->vfpuCtrl[VFPU_CTRL_CC]
  | gprMem (r : Nat) -- mips_->r[r]
  | mipsPC          -- currentMIPS->pc
  | savedPC         -- the static savedPC
  deriving DecidableEq, Repr

/-- Operands of emitted host instructions. -/
inductive OpArg where
  | gprR (r : Nat)   -- gpr.R(r), where guest register r currently lives
  | Imm32 (v : Nat)
  | EAX              -- R(EAX)
  | M (c : Cell)
  deriving DecidableEq, Repr

/-- One call made to the emitter, the register cache or the block compiler. -/
inductive Emit where
  | KillImmediate (preg : Nat) (doLoad makeDirty : Bool)
  | BindToRegister (preg : Nat) (doLoad makeDirty : Bool)
  | CMP (bits : Nat) (a1 a2 : OpArg)
  | TEST (bits : Nat) (a1 a2 : OpArg)
  | MOV (bits : Nat) (dst src : OpArg)
  | FlushAll
  | J_CC (cc : CCFlags) (force5 : Bool) (ptr : Nat)
  | SetJumpTarget (ptr : Nat)
  | CompileDelaySlot (flag : Bool)
  | CompileAt (addr : Nat)
  | WriteExit (destination : Nat) (exit_num : Nat)
  | WriteExitDestInEAX
  deriving DecidableEq, Repr

/-- The fields of `js` the branch compiler reads and writes. -/
structure JitState where
  compilerPC : Nat
  inDelaySlot : Bool
  compiling : Bool
  deriving DecidableEq, Repr

/-- What the compiler reports besides code. -/
inductive LogMsg where
  | branchInDelaySlot (compilerPC : Nat)   -- ERROR_LOG "Branch in delay slot at %08x"
  | cantCompile                            -- _dbg_assert_msg_(CPU, 0, ...)
  deriving DecidableEq, Repr

/-- The compiler: `js`, the calls emitted so far (oldest first) and the reports made. -/
structure Jit where
  js : JitState
  code : List Emit
  errors : List LogMsg
  deriving DecidableEq, Repr

/-- What the code outside CompBranch.cpp does when CompBranch.cpp calls it. -/
structure Ext where
  /-- The guest memory read `Memory::ReadUnchecked_U32`. -/
  ReadUnchecked_U32 : Nat → Nat
  /-- The analyst function `GetOutReg`. -/
  GetOutReg : Nat → Nat
  /-- The analyst function `IsDelaySlotNice`. -/
  IsDelaySlotNice : Nat → Nat → Bool
  /-- How `CompileDelaySlot(flag)` leaves `js`. -/
  delaySlotJs : Bool → JitState → JitState
  /-- How `CompileAt(addr)` leaves `js`. -/
  compileAtJs : Nat → JitState → JitState

/-- Append one call to the emitted stream. -/
def Jit.emit (j : Jit) (e : Emit) : Jit := { j with code := j.code ++ [e] }

/-- The call `ERROR_LOG(JIT, "Branch in delay slot at %08x", js.compilerPC)`. -/
def Jit.ERROR_LOG (j : Jit) : Jit :=
  { j with errors := j.errors ++ [.branchInDelaySlot j.js.compilerPC] }

/-- The call `_dbg_assert_msg_(CPU, 0, ...)` of a `default:` case. -/
def Jit.dbg_assert (j : Jit) : Jit := { j with errors := j.errors ++ [.cantCompile] }

/-- The call `CompileDelaySlot(flag)`: one event, and the external effect on `js`. -/
def CompileDelaySlot (x : Ext) (flag : Bool) (j : Jit) : Jit :=
  { (j.emit (.CompileDelaySlot flag)) with js := x.delaySlotJs flag j.js }

/-- The call `CompileAt(addr)`. -/
def CompileAt (x : Ext) (addr : Nat) (j : Jit) : Jit :=
  { (j.emit (.CompileAt addr)) with js := x.compileAtJs addr j.js }

/-- The call `J_CC(cc, force5)`; the fixup it returns is the position of the jump. -/
def J_CC (cc : CCFlags) (force5 : Bool) (j : Jit) : Jit × Nat :=
  (j.emit (.J_CC cc force5 j.code.length), j.code.length)

/-- Assignment to `js.inDelaySlot`. -/
def Jit.setInDelaySlot (j : Jit) (b : Bool) : Jit := { j with js := { j.js with inDelaySlot := b } }

/-- Assignment to `js.compiling`. -/
def Jit.setCompiling (j : Jit) (b : Bool) : Jit := { j with js := { j.js with compiling := b } }

/-- The part shared, textually, by the four conditional branch functions: from
`js.inDelaySlot = true` to `js.compiling = false`. -/
def branchTail (x : Ext) (cc : CCFlags) (likely : Bool) (delaySlotIsNice : Bool)
    (targetAddr : Nat) (j : Jit) : Jit :=
  let j := j.setInDelaySlot true
  let (j, ptr) :=
    if !likely then
      J_CC cc true (CompileDelaySlot x (!delaySlotIsNice) j)
    else
      let (j1, ptr) := J_CC cc true j
      (CompileDelaySlot x false j1, ptr)
  let j := j.setInDelaySlot false
  -- Take the branch
  let j := j.emit (.WriteExit targetAddr 0)
  let j := j.emit (.SetJumpTarget ptr)
  -- Not taken
  let j := j.emit (.WriteExit (u32add j.js.compilerPC 8) 1)
  j.setCompiling false

/-- The function `Jit::BranchRSRTComp`. -/
def BranchRSRTComp (x : Ext) (op : Nat) (cc : CCFlags) (likely : Bool) (j : Jit) : Jit :=
  if j.js.inDelaySlot then
    j.ERROR_LOG
  else
    let offset : Int := shl2 (signedShort (op &&& 0xFFFF))
    let rt := _RT op
    let rs := _RS op
    let targetAddr := u32add (u32add j.js.compilerPC (toU32 offset)) 4
    let delaySlotOp := x.ReadUnchecked_U32 (u32add j.js.compilerPC 4)
    let delaySlotIsNice := x.GetOutReg delaySlotOp != rt && x.GetOutReg delaySlotOp != rs
    let delaySlotIsNice := false   -- Until we have time to fully fix this
    let j :=
      if rt == 0 then
        (j.emit (.KillImmediate rs true true)).emit (.CMP 32 (.gprR rs) (.Imm32 0))
      else
        (j.emit (.BindToRegister rs true false)).emit
          (.CMP 32 (.gprR rs) (if rt == 0 then .Imm32 0 else .gprR rt))
    let j := j.emit .FlushAll
    branchTail x cc likely delaySlotIsNice targetAddr j

/-- The function `Jit::BranchRSZeroComp`. -/
def BranchRSZeroComp (x : Ext) (op : Nat) (cc : CCFlags) (likely : Bool) (j : Jit) : Jit :=
  if j.js.inDelaySlot then
    j.ERROR_LOG
  else
    let offset : Int := shl2 (signedShort (op &&& 0xFFFF))
    let rs := _RS op
    let targetAddr := u32add (u32add j.js.compilerPC (toU32 offset)) 4
    let delaySlotOp := x.ReadUnchecked_U32 (u32add j.js.compilerPC 4)
    let delaySlotIsNice := x.GetOutReg delaySlotOp != rs
    let delaySlotIsNice := false   -- Until we have time to fully fix this
    let j := j.emit (.BindToRegister rs true false)
    let j := j.emit (.CMP 32 (.gprR rs) (.Imm32 0))
    let j := j.emit .FlushAll
    branchTail x cc likely delaySlotIsNice targetAddr j

/-- The function `Jit::BranchFPFlag`. -/
def BranchFPFlag (x : Ext) (op : Nat) (cc : CCFlags) (likely : Bool) (j : Jit) : Jit :=
  if j.js.inDelaySlot then
    j.ERROR_LOG
  else
    let offset : Int := shl2 (signedShort (op &&& 0xFFFF))
    let targetAddr := u32add (u32add j.js.compilerPC (toU32 offset)) 4
    let delaySlotOp := x.ReadUnchecked_U32 (u32add j.js.compilerPC 4)
    let delaySlotIsNice := x.IsDelaySlotNice op delaySlotOp
    let delaySlotIsNice := false   -- Until we have time to fully fix this
    let j := j.emit .FlushAll
    let j := j.emit (.TEST 32 (.M .fpcond) (.Imm32 1))
    branchTail x cc likely delaySlotIsNice targetAddr j

/-- The function `Jit::BranchVFPUFlag`. -/
def BranchVFPUFlag (x : Ext) (op : Nat) (cc : CCFlags) (likely : Bool) (j : Jit) : Jit :=
  if j.js.inDelaySlot then
    j.ERROR_LOG
  else
    let offset : Int := shl2 (signedShort (op &&& 0xFFFF))
    let targetAddr := u32add (u32add j.js.compilerPC (toU32 offset)) 4
    let delaySlotOp := x.ReadUnchecked_U32 (u32add j.js.compilerPC 4)
    let delaySlotIsNice := x.IsDelaySlotNice op delaySlotOp
    let delaySlotIsNice := false   -- Until we have time to fully fix this
    let j := j.emit .FlushAll
    let imm3 := (op >>> 18) &&& 7
    let j := j.emit (.TEST 32 (.M .vfpuCC) (.Imm32 (1 <<< imm3)))
    branchTail x cc likely delaySlotIsNice targetAddr j

/-- The function `Jit::Comp_RelBranch`. -/
def Comp_RelBranch (x : Ext) (op : Nat) (j : Jit) : Jit :=
  let j :=
    match op >>> 26 with
    | 4 => BranchRSRTComp x op .CC_NZ false j   -- beq
    | 5 => BranchRSRTComp x op .CC_Z false j    -- bne
    | 6 => BranchRSZeroComp x op .CC_G false j  -- blez
    | 7 => BranchRSZeroComp x op .CC_LE false j -- bgtz
    | 20 => BranchRSRTComp x op .CC_NZ true j   -- beql
    | 21 => BranchRSRTComp x op .CC_Z true j    -- bnel
    | 22 => BranchRSZeroComp x op .CC_G true j  -- blezl
    | 23 => BranchRSZeroComp x op .CC_LE true j -- bgtzl
    | _ => j.dbg_assert
  j.setCompiling false

/-- The function `Jit::Comp_RelBranchRI`. -/
def Comp_RelBranchRI (x : Ext) (op : Nat) (j : Jit) : Jit :=
  let j :=
    match (op >>> 16) &&& 0x1F with
    | 0 => BranchRSZeroComp x op .CC_GE false j -- bltz
    | 1 => BranchRSZeroComp x op .CC_L false j  -- bgez
    | 2 => BranchRSZeroComp x op .CC_GE true j  -- bltzl
    | 3 => BranchRSZeroComp x op .CC_L true j   -- bgezl
    | _ => j.dbg_assert
  j.setCompiling false

/-- The function `Jit::Comp_FPUBranch`. -/
def Comp_FPUBranch (x : Ext) (op : Nat) (j : Jit) : Jit :=
  let j :=
    match (op >>> 16) &&& 0x1f with
    | 0 => BranchFPFlag x op .CC_NZ false j -- bc1f
    | 1 => BranchFPFlag x op .CC_Z false j  -- bc1t
    | 2 => BranchFPFlag x op .CC_NZ true j  -- bc1fl
    | 3 => BranchFPFlag x op .CC_Z true j   -- bc1tl
    | _ => j.dbg_assert
  j.setCompiling false

/-- The function `Jit::Comp_VBranch`. -/
def Comp_VBranch (x : Ext) (op : Nat) (j : Jit) : Jit :=
  let j :=
    match (op >>> 16) &&& 3 with
    | 0 => BranchVFPUFlag x op .CC_NZ false j -- bvf
    | 1 => BranchVFPUFlag x op .CC_Z false j  -- bvt
    | 2 => BranchVFPUFlag x op .CC_NZ true j  -- bvfl
    | 3 => BranchVFPUFlag x op .CC_Z true j   -- bvtl
    | _ => j.dbg_assert
  j.setCompiling false

/-- The function `Jit::Comp_Jump`. -/
def Comp_Jump (x : Ext) (op : Nat) (j : Jit) : Jit :=
  if j.js.inDelaySlot then
    j.ERROR_LOG
  else
    let off := ((op &&& 0x3FFFFFF) <<< 2) % U32
    let targetAddr := (j.js.compilerPC &&& 0xF0000000) ||| off
    let j := CompileDelaySlot x false j
    let j :=
      match op >>> 26 with
      | 2 => -- j
        j.emit (.WriteExit targetAddr 0)
      | 3 => -- jal
        let j := j.emit (.MOV 32 (.M (.gprMem MIPS_REG_RA)) (.Imm32 (u32add j.js.compilerPC 8)))
        j.emit (.WriteExit targetAddr 0)
      | _ => j.dbg_assert
    j.setCompiling false

/-- The function `Jit::Comp_JumpReg`. -/
def Comp_JumpReg (x : Ext) (op : Nat) (j : Jit) : Jit :=
  if j.js.inDelaySlot then
    j.ERROR_LOG
  else
    let rs := _RS op
    let delaySlotOp := x.ReadUnchecked_U32 (u32add j.js.compilerPC 4)
    let delaySlotIsNice := x.GetOutReg delaySlotOp != rs
    let delaySlotIsNice := false   -- Until we have time to fully fix this
    -- the rest of the function, from the `switch` on
    let finish (j : Jit) : Jit :=
      let j :=
        match op &&& 0x3f with
        | 8 => j -- jr
        | 9 => -- jalr
          j.emit (.MOV 32 (.M (.gprMem MIPS_REG_RA)) (.Imm32 (u32add j.js.compilerPC 8)))
        | _ => j.dbg_assert
      let j := j.emit .WriteExitDestInEAX
      j.setCompiling false
    if delaySlotIsNice then
      let j := CompileAt x (u32add j.js.compilerPC 4) j
      let j := j.emit (.MOV 32 .EAX (.gprR rs))
      let j := j.emit .FlushAll
      finish j
    else
      -- Latch destination now - save it on the stack.
      let j := j.emit (.BindToRegister rs true false)
      let j := j.emit (.MOV 32 (.M .mipsPC) (.gprR rs))
      let j := j.emit (.MOV 32 (.M .savedPC) (.gprR rs))
      let j := CompileDelaySlot x false j
      if !j.js.compiling then
        -- Oh, there was a syscall in the delay slot
        j
      else
        let j := j.emit (.MOV 32 .EAX (.M .savedPC))
        finish j

/-! ## Running the emitted stream

The host instructions are those of x86; the register cache is transparent, so
`gpr.R(r)` and `mips_->r[r]` both denote the value of guest register `r`. -/

/-- The x86 status flags the six condition codes read. -/
structure Flags where
  ZF : Bool
  SF : Bool
  OF : Bool
  CF : Bool
  deriving DecidableEq, Repr

/-- The state the emitted code runs on. -/
structure Host where
  r : Nat → Nat
  EAX : Nat
  pc : Nat
  savedPC : Nat
  fpcond : Nat
  vfpuCC : Nat
  flags : Flags

/-- The value of a 32-bit word read as `s32`. -/
def toS32 (v : Nat) : Int :=
  if v % U32 < 2147483648 then ((v % U32 : Nat) : Int) else ((v % U32 : Nat) : Int) - 4294967296

/-- Flags after the 32-bit `CMP a, b`. -/
def cmpFlags (a b : Nat) : Flags :=
  let d := (a % U32 + U32 - b % U32) % U32
  { ZF := d == 0
    SF := decide (2147483648 ≤ d)
    OF := decide (toS32 a - toS32 b < -2147483648 ∨ 2147483647 < toS32 a - toS32 b)
    CF := decide (a % U32 < b % U32) }

/-- Flags after the 32-bit `TEST a, b`. -/
def testFlags (a b : Nat) : Flags :=
  let d := (a &&& b) % U32
  { ZF := d == 0, SF := decide (2147483648 ≤ d), OF := false, CF := false }

/-- Whether a conditional jump with this condition code jumps. -/
def CCFlags.holds : CCFlags → Flags → Bool
  | .CC_Z, f => f.ZF
  | .CC_NZ, f => !f.ZF
  | .CC_L, f => f.SF != f.OF
  | .CC_GE, f => f.SF == f.OF
  | .CC_LE, f => f.ZF || (f.SF != f.OF)
  | .CC_G, f => !f.ZF && (f.SF == f.OF)

/-- Value of an operand. -/
def Host.read (h : Host) : OpArg → Nat
  | .gprR r => h.r r
  | .Imm32 v => v
  | .EAX => h.EAX
  | .M .fpcond => h.fpcond
  | .M .vfpuCC => h.vfpuCC
  | .M (.gprMem r) => h.r r
  | .M .mipsPC => h.pc
  | .M .savedPC => h.savedPC

/-- Store of a guest register. -/
def Host.setR (h : Host) (n v : Nat) : Host := { h with r := fun k => if k = n then v else h.r k }

/-- Store to an operand (a store to an immediate does nothing). -/
def Host.write (h : Host) (v : Nat) : OpArg → Host
  | .gprR r => h.setR r v
  | .Imm32 _ => h
  | .EAX => { h with EAX := v }
  | .M .fpcond => { h with fpcond := v }
  | .M .vfpuCC => { h with vfpuCC := v }
  | .M (.gprMem r) => h.setR r v
  | .M .mipsPC => { h with pc := v }
  | .M .savedPC => { h with savedPC := v }

/-- What the host code produced by the external compilers does when it runs. -/
structure HostExt where
  /-- The code emitted by `CompileDelaySlot(flag)`. -/
  delaySlotRun : Bool → Host → Host
  /-- The code emitted by `CompileAt(addr)`. -/
  compileAtRun : Nat → Host → Host

/-- Effect of one emitted call that is not a jump or an exit. -/
def step (y : HostExt) (h : Host) : Emit → Host
  | .CMP _ a b => { h with flags := cmpFlags (h.read a) (h.read b) }
  | .TEST _ a b => { h with flags := testFlags (h.read a) (h.read b) }
  | .MOV _ dst src => h.write (h.read src) dst
  | .CompileDelaySlot flag => y.delaySlotRun flag h
  | .CompileAt addr => y.compileAtRun addr h
  | _ => h

/-- How a run of the emitted code ends. -/
inductive Outcome where
  | exit (destination exit_num : Nat) (h : Host)   -- through WriteExit
  | exitEAX (h : Host)                             -- through WriteExitDestInEAX, to h.EAX
  | fellOff (h : Host)                             -- past the end of the stream

/-- The state a run ends in. -/
def Outcome.host : Outcome → Host
  | .exit _ _ h => h
  | .exitEAX h => h
  | .fellOff h => h

/-- The guest address at which execution resumes after a run, if the run left through
an exit. -/
def Outcome.dest : Outcome → Option Nat
  | .exit d _ _ => some d
  | .exitEAX h => some h.EAX
  | .fellOff _ => none

/-- Run the emitted stream from its first call. `skip = some p` is the state after a
taken jump with fixup `p`: calls are passed over up to `SetJumpTarget(p)`. The result
is the list of calls executed and the way the run ends. -/
def exec (y : HostExt) : Option Nat → List Emit → Host → List Emit × Outcome
  | _, [], h => ([], .fellOff h)
  | some p, e :: rest, h =>
    if e = .SetJumpTarget p then exec y none rest h else exec y (some p) rest h
  | none, e :: rest, h =>
    match e with
    | .WriteExit d n => ([e], .exit d n h)
    | .WriteExitDestInEAX => ([e], .exitEAX h)
    | .J_CC cc _ p =>
      let res := exec y (if cc.holds h.flags then some p else none) rest h
      (e :: res.1, res.2)
    | _ =>
      let res := exec y none rest (step y h e)
      (e :: res.1, res.2)


/-! ## Vocabulary of the statements -/

/-- What a call emitted: the stream after the call without the stream before it. -/
def newCode (before after : Jit) : List Emit := after.code.drop before.code.length

/-- The exit records `(destination, exit_num)` written by `WriteExit`, in order. -/
def exitRecords (code : List Emit) : List (Nat × Nat) :=
  code.filterMap fun e =>
    match e with
    | .WriteExit d n => some (d, n)
    | _ => none

/-- Whether a call is a compilation of the delay slot. -/
def Emit.isDelaySlot : Emit → Bool
  | .CompileDelaySlot _ => true
  | _ => false

/-- Number of delay-slot compilations in a stream. -/
def delaySlotCount (code : List Emit) : Nat := code.countP Emit.isDelaySlot

/-- Calls that `exec` runs through: no jump and no exit. -/
def Emit.straight : Emit → Bool
  | .WriteExit _ _ => false
  | .WriteExitDestInEAX => false
  | .J_CC _ _ _ => false
  | _ => true

/-- State after a stretch of calls without jump or exit. -/
def runStraight (y : HostExt) (h : Host) (code : List Emit) : Host := code.foldl (step y) h

/-- The external delay-slot compiler does not move `js.compilerPC`. -/
def Ext.keepsPC (x : Ext) : Prop :=
  ∀ (flag : Bool) (s : JitState), (x.delaySlotJs flag s).compilerPC = s.compilerPC

/-- Sign extension of a 16-bit immediate, as the specification names it. -/
def signExtend16 (imm : Nat) : Int := if imm < 32768 then (imm : Int) else (imm : Int) - 65536

/-- The branch target of the specification: `pc + 4 + (signExtend16(imm) << 2)`,
taken modulo 2^32. -/
def branchTargetSpec (pc op : Nat) : Nat :=
  (((pc : Int) + 4 + signExtend16 (op % 65536) * 4) % 4294967296).toNat

/-- Order of delay slot and conditional jump that the specification gives for a
branch that is not likely, with what it means when the stream runs: the delay-slot
code runs whether or not the jump is taken. -/
def NotLikelyOrder (cc : CCFlags) (t pc8 : Nat) (new : List Emit) : Prop :=
  ∃ (pre : List Emit) (p : Nat),
    (∀ e ∈ pre, e.straight = true) ∧ delaySlotCount pre = 0 ∧
    new = pre ++ [.CompileDelaySlot true, .J_CC cc true p, .WriteExit t 0,
                  .SetJumpTarget p, .WriteExit pc8 1] ∧
    ∀ (y : HostExt) (h : Host),
      exec y none new h =
        if cc.holds (y.delaySlotRun true (runStraight y h pre)).flags then
          (pre ++ [.CompileDelaySlot true, .J_CC cc true p, .WriteExit pc8 1],
            .exit pc8 1 (y.delaySlotRun true (runStraight y h pre)))
        else
          (pre ++ [.CompileDelaySlot true, .J_CC cc true p, .WriteExit t 0],
            .exit t 0 (y.delaySlotRun true (runStraight y h pre)))

/-- Order of conditional jump and delay slot that the specification gives for a
likely branch, with what it means when the stream runs: a taken jump lands on the
exit to `pc8` and runs none of the delay-slot code. -/
def LikelyOrder (cc : CCFlags) (t pc8 : Nat) (new : List Emit) : Prop :=
  ∃ (pre : List Emit) (p : Nat),
    (∀ e ∈ pre, e.straight = true) ∧ delaySlotCount pre = 0 ∧
    new = pre ++ [.J_CC cc true p, .CompileDelaySlot false, .WriteExit t 0,
                  .SetJumpTarget p, .WriteExit pc8 1] ∧
    ∀ (y : HostExt) (h : Host),
      exec y none new h =
        if cc.holds (runStraight y h pre).flags then
          (pre ++ [.J_CC cc true p, .WriteExit pc8 1], .exit pc8 1 (runStraight y h pre))
        else
          (pre ++ [.J_CC cc true p, .CompileDelaySlot false, .WriteExit t 0],
            .exit t 0 (y.delaySlotRun false (runStraight y h pre)))

/-- The placement the specification gives, by the likely flag. -/
def DelaySlotPlacement (likely : Bool) (cc : CCFlags) (t pc8 : Nat) (new : List Emit) : Prop :=
  if likely then LikelyOrder cc t pc8 new else NotLikelyOrder cc t pc8 new

/-! ## Inputs of the worked examples -/

/-- An environment whose delay slot holds `addiu $1, $1, 1`. -/
def x0 : Ext where
  ReadUnchecked_U32 := fun _ => 0x24210001
  GetOutReg := fun _ => 1
  IsDelaySlotNice := fun _ _ => false
  delaySlotJs := fun _ s => { s with inDelaySlot := false }
  compileAtJs := fun _ s => s

/-- A compiler at guest address 0x08804000, outside a delay slot, with nothing emitted. -/
def j0 : Jit := ⟨⟨0x08804000, false, true⟩, [], []⟩

/-- The same compiler inside a delay slot. -/
def jSlot : Jit := ⟨⟨0x08804000, true, true⟩, [], []⟩

/-- Host code of a delay slot holding `addiu $1, $1, 1`; it leaves the flags alone. -/
def yInc : HostExt where
  delaySlotRun := fun _ h => h.setR 1 (u32add (h.r 1) 1)
  compileAtRun := fun _ h => h

/-- Host code of a delay slot holding `addu $2, $31, $0`, a copy of the link register. -/
def yCopyRA : HostExt where
  delaySlotRun := fun _ h => h.setR 2 (h.r 31)
  compileAtRun := fun _ h => h

/-- Host code of a delay slot holding `addiu $31, $31, 4`, which overwrites the
register a `jr $31` jumps through. -/
def yBumpRA : HostExt where
  delaySlotRun := fun _ h => h.setR 31 (u32add (h.r 31) 4)
  compileAtRun := fun _ h => h

/-- A host state: every guest register 0 except `$31 = 0x08800100`. -/
def h0 : Host where
  r := fun k => if k = 31 then 0x08800100 else 0
  EAX := 0
  pc := 0
  savedPC := 0
  fpcond := 0
  vfpuCC := 0
  flags := ⟨false, false, false, false⟩

/-! ## Vocabulary for the branch conditions -/

/-- The exit number a run left through, if it left through `WriteExit`. -/
def Outcome.exit_num : Outcome → Option Nat
  | .exit _ n _ => some n
  | .exitEAX _ => none
  | .fellOff _ => none

/-- The MIPS condition of the branches `Comp_RelBranch` dispatches, on the register
values of `h`: beq/beql, bne/bnel, blez/blezl, bgtz/bgtzl. -/
def relBranchTaken (op : Nat) (h : Host) : Bool :=
  match op >>> 26 with
  | 4 => h.r (_RS op) == h.r (_RT op)             -- beq
  | 5 => h.r (_RS op) != h.r (_RT op)             -- bne
  | 6 => decide (toS32 (h.r (_RS op)) ≤ 0)        -- blez
  | 7 => decide (0 < toS32 (h.r (_RS op)))        -- bgtz
  | 20 => h.r (_RS op) == h.r (_RT op)            -- beql
  | 21 => h.r (_RS op) != h.r (_RT op)            -- bnel
  | 22 => decide (toS32 (h.r (_RS op)) ≤ 0)       -- blezl
  | 23 => decide (0 < toS32 (h.r (_RS op)))       -- bgtzl
  | _ => false

/-- The likely variants among the primary opcodes: 20 to 23. -/
def relBranchLikely (op : Nat) : Bool :=
  op >>> 26 == 20 || op >>> 26 == 21 || op >>> 26 == 22 || op >>> 26 == 23

/-- The MIPS condition of the branches `Comp_RelBranchRI` dispatches: bltz/bltzl,
bgez/bgezl. -/
def relBranchRITaken (op : Nat) (h : Host) : Bool :=
  match (op >>> 16) &&& 0x1F with
  | 0 => decide (toS32 (h.r (_RS op)) < 0)        -- bltz
  | 1 => decide (0 ≤ toS32 (h.r (_RS op)))        -- bgez
  | 2 => decide (toS32 (h.r (_RS op)) < 0)        -- bltzl
  | 3 => decide (0 ≤ toS32 (h.r (_RS op)))        -- bgezl
  | _ => false

/-- The likely variants among the regimm branches: rt field 2 and 3. -/
def relBranchRILikely (op : Nat) : Bool :=
  (op >>> 16) &&& 0x1F == 2 || (op >>> 16) &&& 0x1F == 3

/-- What it means for the code `new` of a conditional branch, run from `h` with result
`run`, to jump on the negation of the guest condition `taken`: the conditional jump
tests the flags of the emitted `CMP` with a condition code that holds exactly when
`taken` fails; the run leaves through exit 0 to the target `t` exactly when `taken`
holds and through exit 1 to `pc8` otherwise; the delay-slot code runs once, except for
a likely branch that is not taken, where it does not run and the registers are those
of `h`. -/
def NegatedCondition (taken likely : Bool) (t pc8 : Nat) (h : Host) (new : List Emit)
    (run : List Emit × Outcome) : Prop :=
  (∃ (cc : CCFlags) (p : Nat) (a b : OpArg),
      Emit.CMP 32 a b ∈ new ∧ Emit.J_CC cc true p ∈ new ∧
        cc.holds (cmpFlags (h.read a) (h.read b)) = !taken) ∧
    run.2.exit_num = some (if taken then 0 else 1) ∧
    run.2.dest = some (if taken then t else pc8) ∧
    delaySlotCount run.1 = (if likely && !taken then 0 else 1) ∧
    (likely = true → taken = false → run.2.host.r = h.r)

/-- Host code of a delay slot holding `addiu $2, $0, 0x55`, a write of register 2. -/
def yWriteR2 : HostExt where
  delaySlotRun := fun _ h => h.setR 2 0x55
  compileAtRun := fun _ h => h

/-- A host state with `$1 = 7`, `$2 = 9` and every other guest register 0. -/
def h1 : Host where
  r := fun k => if k = 1 then 7 else if k = 2 then 9 else 0
  EAX := 0
  pc := 0
  savedPC := 0
  fpcond := 0
  vfpuCC := 0
  flags := ⟨false, false, false, false⟩

end MIPSComp
namespace MemArena

/-! ## The POSIX memory arena (Common/MemArenaPosix.cpp, the branch without HAVE_LIBNX)

The operating system is an oracle: `OS` fixes what each call answers. Within one run of
`GrabMemSpace` every call is made at most once with given arguments, so an answer per
call and argument covers every behaviour of the system. The calls made are recorded
in order. -/

/-- The constant `tmpfs_location`. -/
def tmpfs_location : String := "/dev/shm"

/-- The constant `tmpfs_ram_temp_file`. -/
def tmpfs_ram_temp_file : String := "/dev/shm/gc_mem.tmp"

/-- Initial value of the global `ram_temp_file`. -/
def ram_temp_file_init : String := "/tmp/gc_mem.tmp"

/-- The name `snprintf` writes for candidate `i`: "/ppsspp_%d.ram". -/
def ram_temp_filename (i : Nat) : String := "/ppsspp_" ++ toString i ++ ".ram"

/-- Values of `<sys/mman.h>` (Linux; `MAP_NOSYNC` from FreeBSD). -/
def PROT_READ : Nat := 1

/-- See `PROT_READ`. -/
def PROT_WRITE : Nat := 2

/-- See `PROT_READ`. -/
def MAP_SHARED : Nat := 1

/-- See `PROT_READ`. -/
def MAP_FIXED : Nat := 0x10

/-- See `PROT_READ`. -/
def MAP_NOSYNC : Nat := 0x0800

/-- The pointer `(void *) -1` of a 64-bit host. -/
def MAP_FAILED : Nat := 18446744073709551615

/-- A call to the operating system, with its arguments. -/
inductive Call where
  | shm_open (name : String)
  | shm_unlink (name : String)
  | Exists (path : String)
  | openFile (path : String)
  | unlink (path : String)
  | ftruncate (fd : Int) (size : Nat)
  | mmap (addr length prot flags : Nat) (fd : Int) (offset : Int)
  | munmap (addr length : Nat)
  | close (fd : Int)
  deriving DecidableEq, Repr

/-- What the operating system answers. -/
structure OS where
  /-- Answer of `shm_open(name, O_RDWR | O_CREAT | O_EXCL, mode)`. -/
  shm_open : String → Int
  /-- Answer of `shm_unlink(name)`. -/
  shm_unlink : String → Int
  /-- Answer of `File::Exists(Path(path))`. -/
  Exists : String → Bool
  /-- Answer of `open(tmpfs_ram_temp_file, O_RDWR | O_CREAT, mode)`. -/
  open_tmpfs : Int
  /-- Answer of the last-resort `open(ram_temp_file, O_RDWR | O_CREAT, mode)`. -/
  open_ram_temp : String → Int
  /-- Answer of `unlink(path)`. -/
  unlink : String → Int
  /-- Answer of `ftruncate(fd, size)`. -/
  ftruncate : Int → Nat → Int
  /-- Answer of `mmap(addr, length, prot, flags, fd, offset)`. -/
  mmap : Nat → Nat → Nat → Nat → Int → Int → Nat

/-- The log lines of the arena, by level. -/
inductive Log where
  | INFO_LOG (msg : String)
  | WARN_LOG (msg : String)
  | ERROR_LOG (msg : String)
  | NOTICE_LOG (msg : String)
  deriving DecidableEq, Repr

/-- The arena: the member `fd`, the global `ram_temp_file`, and what was done so far. -/
structure Arena where
  fd : Int
  ram_temp_file : String
  calls : List Call
  log : List Log
  deriving DecidableEq, Repr

/-- Record a call. -/
def Arena.call (a : Arena) (c : Call) : Arena := { a with calls := a.calls ++ [c] }

/-- Record a log line. -/
def Arena.say (a : Arena) (l : Log) : Arena := { a with log := a.log ++ [l] }

/-- The loop `for (int i = 0; i < 256; ++i)` of `GrabMemSpace`, with `n` iterations left
at index `i`; the second component is `is_shm`. -/
def shmLoop (os : OS) : Nat → Nat → Arena → Arena × Bool
  | 0, _, a => (a, false)
  | n + 1, i, a =>
    let a : Arena := { a.call (.shm_open (ram_temp_filename i)) with
      fd := os.shm_open (ram_temp_filename i) }
    if 0 ≤ a.fd then
      let a := a.say (.INFO_LOG "Got shm file")
      -- Our handle persists per POSIX, so no need to keep it around.
      let a := a.call (.shm_unlink (ram_temp_filename i))
      let a :=
        if os.shm_unlink (ram_temp_filename i) ≠ 0 then a.say (.WARN_LOG "Failed to shm_unlink")
        else a
      (a, true)
    else
      shmLoop os n (i + 1) a

/-- The function `MemArena::GrabMemSpace`. -/
def GrabMemSpace (os : OS) (size : Nat) (a : Arena) : Bool × Arena :=
  -- Try a few times in case multiple instances are started near each other.
  let (a, is_shm) := shmLoop os 256 0 a
  -- Fall back to old tmpfs behavior.
  let a :=
    if a.fd < 0 then
      let a := a.call (.Exists tmpfs_location)
      if os.Exists tmpfs_location then
        let a : Arena := { a.call (.openFile tmpfs_ram_temp_file) with fd := os.open_tmpfs }
        if 0 ≤ a.fd then
          -- Great, this definitely shouldn't flush to disk.
          let a : Arena := { a with ram_temp_file := tmpfs_ram_temp_file }
          a.say (.INFO_LOG "Got tmpfs ram file")
        else a
      else a
    else a
  let a :=
    if a.fd < 0 then
      let a := a.say (.INFO_LOG "Trying as ram temp file")
      { a.call (.openFile a.ram_temp_file) with fd := os.open_ram_temp a.ram_temp_file }
    else a
  if a.fd < 0 then
    (false, a.say (.ERROR_LOG "Failed to grab memory space as a file"))
  else
    -- delete immediately, we keep the fd so it still lives
    let a :=
      if !is_shm then
        let a1 := a.call (.unlink a.ram_temp_file)
        if os.unlink a.ram_temp_file ≠ 0 then a1.say (.WARN_LOG "Failed to unlink") else a1
      else a
    let a :=
      let a1 := a.call (.ftruncate a.fd size)
      if os.ftruncate a.fd size ≠ 0 then
        a1.say (.ERROR_LOG "Failed to ftruncate")   -- Should this be a failure?
      else a1
    (true, a)

/-- The function `MemArena::ReleaseSpace`. -/
def ReleaseSpace (a : Arena) : Arena := a.call (.close a.fd)

/-- The flags `CreateView` passes to `mmap`; `bsd` stands for
`defined(__DragonFly__) || defined(__FreeBSD__)`. -/
def viewFlags (bsd : Bool) (base : Nat) : Nat :=
  MAP_SHARED ||| (if bsd then MAP_NOSYNC else 0) ||| (if base == 0 then 0 else MAP_FIXED)

/-- The function `MemArena::CreateView`. -/
def CreateView (os : OS) (bsd : Bool) (offset : Int) (size : Nat) (base : Nat) (a : Arena) :
    Nat × Arena :=
  let retval := os.mmap base size (PROT_READ ||| PROT_WRITE) (viewFlags bsd base) a.fd offset
  let a := a.call (.mmap base size (PROT_READ ||| PROT_WRITE) (viewFlags bsd base) a.fd offset)
  if retval == MAP_FAILED then
    (0, a.say (.NOTICE_LOG "mmap failed"))
  else
    (retval, a)

/-- The function `MemArena::ReleaseView`. -/
def ReleaseView (view : Nat) (size : Nat) (a : Arena) : Arena := a.call (.munmap view size)

/-- The calls to `shm_open` for the candidates `0 .. n - 1`, in order. -/
def shmOpens (n : Nat) : List Call := (List.range n).map fun i => .shm_open (ram_temp_filename i)

/-- An operating system on which nothing but the plain temporary file can be opened,
`ftruncate` fails, and `mmap` maps at 0x7f0000000000 unless told to fail. -/
def osTmpOnly : OS where
  shm_open := fun _ => -1
  shm_unlink := fun _ => 0
  Exists := fun _ => false
  open_tmpfs := -1
  open_ram_temp := fun _ => 5
  unlink := fun _ => 0
  ftruncate := fun _ _ => -1
  mmap := fun addr _ _ _ fd _ => if fd < 0 then MAP_FAILED else if addr = 0 then 0x7f0000000000 else addr

/-- An arena before `GrabMemSpace`. -/
def a0 : Arena := ⟨-1, ram_temp_file_init, [], []⟩

end MemArena

/-! # Theorems -/

namespace MIPSComp

/-! ## Lemmas on the emitted stream -/

theorem targetAddr_eq (pc op : Nat) :
    u32add (u32add pc (toU32 (shl2 (signedShort (op &&& 0xFFFF))))) 4 = branchTargetSpec pc op := by
  have h : op &&& 0xFFFF = op % 65536 := Nat.and_pow_two_sub_one_eq_mod op 16
  rw [h]
  unfold u32add toU32 shl2 signedShort branchTargetSpec signExtend16 U32
  have h2 : op % 65536 % 65536 = op % 65536 := Nat.mod_mod _ _
  rw [h2]
  split <;> omega

theorem newCode_append (j j2 : Jit) (l : List Emit) (h : j2.code = j.code ++ l) :
    newCode j j2 = l := by
  simp [newCode, h]

theorem exec_straight (y : HostExt) (pre rest : List Emit) :
    ∀ h : Host, (∀ e ∈ pre, e.straight = true) →
      exec y none (pre ++ rest) h =
        (pre ++ (exec y none rest (runStraight y h pre)).1,
          (exec y none rest (runStraight y h pre)).2) := by
  induction pre with
  | nil => intro h _; simp [runStraight]
  | cons e pre ih =>
    intro h hs
    have he : e.straight = true := hs e (by simp)
    have hp : ∀ e2 ∈ pre, e2.straight = true := fun e2 h2 => hs e2 (by simp [h2])
    cases e <;> simp [Emit.straight] at he <;>
      simp [exec, ih _ hp, runStraight]


theorem exec_likely_tail (y : HostExt) (cc : CCFlags) (p t pc8 : Nat) (h : Host) :
    exec y none [.J_CC cc true p, .CompileDelaySlot false, .WriteExit t 0,
        .SetJumpTarget p, .WriteExit pc8 1] h =
      if cc.holds h.flags then
        ([.J_CC cc true p, .WriteExit pc8 1], .exit pc8 1 h)
      else
        ([.J_CC cc true p, .CompileDelaySlot false, .WriteExit t 0],
          .exit t 0 (y.delaySlotRun false h)) := by
  by_cases hc : cc.holds h.flags = true <;> simp [exec, step, hc]

theorem exec_notLikely_tail (y : HostExt) (cc : CCFlags) (p t pc8 : Nat) (h : Host) :
    exec y none [.CompileDelaySlot true, .J_CC cc true p, .WriteExit t 0,
        .SetJumpTarget p, .WriteExit pc8 1] h =
      if cc.holds (y.delaySlotRun true h).flags then
        ([.CompileDelaySlot true, .J_CC cc true p, .WriteExit pc8 1],
          .exit pc8 1 (y.delaySlotRun true h))
      else
        ([.CompileDelaySlot true, .J_CC cc true p, .WriteExit t 0],
          .exit t 0 (y.delaySlotRun true h)) := by
  by_cases hc : cc.holds (y.delaySlotRun true h).flags = true <;> simp [exec, step, hc]

theorem placement_of_shape (likely : Bool) (cc : CCFlags) (t pc8 p : Nat)
    (pre new : List Emit) (hs : ∀ e ∈ pre, e.straight = true) (hd : delaySlotCount pre = 0)
    (hnew : new = pre ++ (if likely then
        [.J_CC cc true p, .CompileDelaySlot false, .WriteExit t 0,
          .SetJumpTarget p, .WriteExit pc8 1]
      else
        [.CompileDelaySlot true, .J_CC cc true p, .WriteExit t 0,
          .SetJumpTarget p, .WriteExit pc8 1])) :
    DelaySlotPlacement likely cc t pc8 new := by
  cases likely
  · refine ⟨pre, p, hs, hd, by simpa using hnew, ?_⟩
    intro y h
    have hnew2 : new = pre ++ [.CompileDelaySlot true, .J_CC cc true p, .WriteExit t 0,
          .SetJumpTarget p, .WriteExit pc8 1] := by simpa using hnew
    rw [hnew2, exec_straight y pre _ h hs, exec_notLikely_tail]
    split <;> simp
  · refine ⟨pre, p, hs, hd, by simpa using hnew, ?_⟩
    intro y h
    have hnew2 : new = pre ++ [.J_CC cc true p, .CompileDelaySlot false, .WriteExit t 0,
          .SetJumpTarget p, .WriteExit pc8 1] := by simpa using hnew
    rw [hnew2, exec_straight y pre _ h hs, exec_likely_tail]
    split <;> simp

/-- Code emitted by the shared tail of the conditional branch functions. -/
theorem branchTail_code (x : Ext) (cc : CCFlags) (likely : Bool) (t : Nat) (j : Jit) :
    (branchTail x cc likely false t j).code =
      j.code ++ (if likely then
        [.J_CC cc true j.code.length, .CompileDelaySlot false, .WriteExit t 0,
          .SetJumpTarget j.code.length,
          .WriteExit (u32add (x.delaySlotJs false
            { j.js with inDelaySlot := true }).compilerPC 8) 1]
      else
        [.CompileDelaySlot true, .J_CC cc true (j.code.length + 1), .WriteExit t 0,
          .SetJumpTarget (j.code.length + 1),
          .WriteExit (u32add (x.delaySlotJs true
            { j.js with inDelaySlot := true }).compilerPC 8) 1]) := by
  cases likely <;>
    simp [branchTail, J_CC, CompileDelaySlot, Jit.emit, Jit.setInDelaySlot, Jit.setCompiling]

/-- What a conditional branch function emitted, given the calls `pre` it makes before
the shared tail. -/
theorem cond_newCode (x : Ext) (cc : CCFlags) (likely : Bool) (t : Nat) (j : Jit)
    (pre : List Emit) :
    newCode j (branchTail x cc likely false t { j with code := j.code ++ pre }) =
      pre ++ (if likely then
        [.J_CC cc true (j.code.length + pre.length), .CompileDelaySlot false, .WriteExit t 0,
          .SetJumpTarget (j.code.length + pre.length),
          .WriteExit (u32add (x.delaySlotJs false
            { j.js with inDelaySlot := true }).compilerPC 8) 1]
      else
        [.CompileDelaySlot true, .J_CC cc true (j.code.length + pre.length + 1), .WriteExit t 0,
          .SetJumpTarget (j.code.length + pre.length + 1),
          .WriteExit (u32add (x.delaySlotJs true
            { j.js with inDelaySlot := true }).compilerPC 8) 1]) := by
  apply newCode_append
  rw [branchTail_code]
  simp [List.append_assoc]

/-- The same with an external compiler that leaves `js.compilerPC` alone. -/
theorem cond_newCode_pc (x : Ext) (cc : CCFlags) (likely : Bool) (t : Nat) (j : Jit)
    (pre : List Emit) (hpc : x.keepsPC) :
    newCode j (branchTail x cc likely false t { j with code := j.code ++ pre }) =
      pre ++ (if likely then
        [.J_CC cc true (j.code.length + pre.length), .CompileDelaySlot false, .WriteExit t 0,
          .SetJumpTarget (j.code.length + pre.length), .WriteExit (u32add j.js.compilerPC 8) 1]
      else
        [.CompileDelaySlot true, .J_CC cc true (j.code.length + pre.length + 1), .WriteExit t 0,
          .SetJumpTarget (j.code.length + pre.length + 1),
          .WriteExit (u32add j.js.compilerPC 8) 1]) := by
  rw [cond_newCode]
  simp [hpc _ _]

/-- Placement for a conditional branch function, from the calls it makes first. -/
theorem cond_placement (x : Ext) (cc : CCFlags) (likely : Bool) (t : Nat) (j : Jit)
    (pre : List Emit) (hpc : x.keepsPC) (hs : ∀ e ∈ pre, e.straight = true)
    (hd : delaySlotCount pre = 0) :
    DelaySlotPlacement likely cc t (u32add j.js.compilerPC 8)
      (newCode j (branchTail x cc likely false t { j with code := j.code ++ pre })) := by
  cases likely
  · exact placement_of_shape false cc t _ (j.code.length + pre.length + 1) pre _ hs hd
      (by rw [cond_newCode_pc x cc false t j pre hpc]; simp)
  · exact placement_of_shape true cc t _ (j.code.length + pre.length) pre _ hs hd
      (by rw [cond_newCode_pc x cc true t j pre hpc]; simp)

/-- Exit records of a conditional branch function, from the calls it makes first. -/
theorem cond_exitRecords (x : Ext) (cc : CCFlags) (likely : Bool) (t : Nat) (j : Jit)
    (pre : List Emit) (hpc : x.keepsPC) (he : exitRecords pre = []) :
    exitRecords (newCode j (branchTail x cc likely false t { j with code := j.code ++ pre })) =
      [(t, 0), (u32add j.js.compilerPC 8, 1)] := by
  rw [cond_newCode_pc x cc likely t j pre hpc]
  unfold exitRecords at he ⊢
  rw [List.filterMap_append, he]
  cases likely <;> simp

/-- Exits with discriminator 0 of a conditional branch function. -/
theorem cond_takenExit (x : Ext) (cc : CCFlags) (likely : Bool) (t : Nat) (j : Jit)
    (pre : List Emit) (he : ∀ d n, Emit.WriteExit d n ∉ pre) (d : Nat) :
    Emit.WriteExit d 0 ∈
        newCode j (branchTail x cc likely false t { j with code := j.code ++ pre }) ↔
      d = t := by
  rw [cond_newCode x cc likely t j pre]
  cases likely <;> simp [he]

theorem branchTail_js (x : Ext) (cc : CCFlags) (likely nice : Bool) (t : Nat) (j : Jit) :
    (branchTail x cc likely nice t j).js.inDelaySlot = false ∧
      (branchTail x cc likely nice t j).js.compiling = false := by
  cases likely <;>
    simp [branchTail, J_CC, CompileDelaySlot, Jit.emit, Jit.setInDelaySlot, Jit.setCompiling]

/-- The calls each conditional branch function makes before the shared tail. -/
theorem BranchRSRTComp_eq (x : Ext) (op : Nat) (cc : CCFlags) (likely : Bool) (j : Jit)
    (hin : j.js.inDelaySlot = false) :
    BranchRSRTComp x op cc likely j =
      branchTail x cc likely false (branchTargetSpec j.js.compilerPC op)
        { j with code := j.code ++
            [if _RT op = 0 then .KillImmediate (_RS op) true true
              else .BindToRegister (_RS op) true false,
             .CMP 32 (.gprR (_RS op)) (if _RT op = 0 then .Imm32 0 else .gprR (_RT op)),
             .FlushAll] } := by
  rw [← targetAddr_eq]
  unfold BranchRSRTComp
  by_cases h0 : _RT op = 0 <;> simp [hin, h0, Jit.emit]

theorem BranchRSZeroComp_eq (x : Ext) (op : Nat) (cc : CCFlags) (likely : Bool) (j : Jit)
    (hin : j.js.inDelaySlot = false) :
    BranchRSZeroComp x op cc likely j =
      branchTail x cc likely false (branchTargetSpec j.js.compilerPC op)
        { j with code := j.code ++
            [.BindToRegister (_RS op) true false, .CMP 32 (.gprR (_RS op)) (.Imm32 0),
             .FlushAll] } := by
  rw [← targetAddr_eq]
  unfold BranchRSZeroComp
  simp [hin, Jit.emit]

theorem BranchFPFlag_eq (x : Ext) (op : Nat) (cc : CCFlags) (likely : Bool) (j : Jit)
    (hin : j.js.inDelaySlot = false) :
    BranchFPFlag x op cc likely j =
      branchTail x cc likely false (branchTargetSpec j.js.compilerPC op)
        { j with code := j.code ++ [.FlushAll, .TEST 32 (.M .fpcond) (.Imm32 1)] } := by
  rw [← targetAddr_eq]
  unfold BranchFPFlag
  simp [hin, Jit.emit]

theorem BranchVFPUFlag_eq (x : Ext) (op : Nat) (cc : CCFlags) (likely : Bool) (j : Jit)
    (hin : j.js.inDelaySlot = false) :
    BranchVFPUFlag x op cc likely j =
      branchTail x cc likely false (branchTargetSpec j.js.compilerPC op)
        { j with code := j.code ++
            [.FlushAll, .TEST 32 (.M .vfpuCC) (.Imm32 (1 <<< ((op >>> 18) &&& 7)))] } := by
  rw [← targetAddr_eq]
  unfold BranchVFPUFlag
  simp [hin, Jit.emit]


theorem x0_keepsPC : x0.keepsPC := fun _ _ => rfl

/-! ## The claims -/

/-- C1. Outside a delay slot, each of the four conditional branch functions places the
delay-slot compilation by the likely flag: not likely, the delay slot is compiled
before the conditional jump and runs on both paths; likely, the jump comes first, the
delay slot lies between the jump and the taken-path exit, and a taken jump lands on
the exit to pc + 8 without running any delay-slot code. -/
theorem C1_delay_slot_placement (x : Ext) (op : Nat) (cc : CCFlags) (likely : Bool) (j : Jit)
    (hin : j.js.inDelaySlot = false) (hpc : x.keepsPC) :
    DelaySlotPlacement likely cc (branchTargetSpec j.js.compilerPC op)
        (u32add j.js.compilerPC 8) (newCode j (BranchRSRTComp x op cc likely j)) ∧
      DelaySlotPlacement likely cc (branchTargetSpec j.js.compilerPC op)
        (u32add j.js.compilerPC 8) (newCode j (BranchRSZeroComp x op cc likely j)) ∧
      DelaySlotPlacement likely cc (branchTargetSpec j.js.compilerPC op)
        (u32add j.js.compilerPC 8) (newCode j (BranchFPFlag x op cc likely j)) ∧
      DelaySlotPlacement likely cc (branchTargetSpec j.js.compilerPC op)
        (u32add j.js.compilerPC 8) (newCode j (BranchVFPUFlag x op cc likely j)) := by
  refine ⟨?_, ?_, ?_, ?_⟩
  · rw [BranchRSRTComp_eq x op cc likely j hin]
    apply cond_placement x cc likely _ j _ hpc
    · intro e he
      by_cases h0 : _RT op = 0 <;> simp [h0] at he <;>
        rcases he with rfl | rfl | rfl <;> rfl
    · by_cases h0 : _RT op = 0 <;> simp [h0, delaySlotCount, Emit.isDelaySlot]
  · rw [BranchRSZeroComp_eq x op cc likely j hin]
    apply cond_placement x cc likely _ j _ hpc
    · intro e he
      simp at he
      rcases he with rfl | rfl | rfl <;> rfl
    · simp [delaySlotCount, Emit.isDelaySlot]
  · rw [BranchFPFlag_eq x op cc likely j hin]
    apply cond_placement x cc likely _ j _ hpc
    · intro e he
      simp at he
      rcases he with rfl | rfl <;> rfl
    · simp [delaySlotCount, Emit.isDelaySlot]
  · rw [BranchVFPUFlag_eq x op cc likely j hin]
    apply cond_placement x cc likely _ j _ hpc
    · intro e he
      simp at he
      rcases he with rfl | rfl <;> rfl
    · simp [delaySlotCount, Emit.isDelaySlot]


/-- C1 at a concrete input: `beql $1, $0` compiled at 0x08804000. -/
theorem C1_delay_slot_placement_witness :
    j0.js.inDelaySlot = false ∧ x0.keepsPC ∧
      DelaySlotPlacement true .CC_NZ (branchTargetSpec j0.js.compilerPC 0x50200002)
        (u32add j0.js.compilerPC 8) (newCode j0 (BranchRSRTComp x0 0x50200002 .CC_NZ true j0)) :=
  ⟨rfl, x0_keepsPC, (C1_delay_slot_placement x0 0x50200002 .CC_NZ true j0 rfl x0_keepsPC).1⟩

/-- C2. Outside a delay slot, the exit with discriminator 0 written by each of the four
conditional branch functions has the destination pc + 4 + (signExtend16(op & 0xFFFF) << 2)
modulo 2^32; a negative immediate gives a destination below pc + 4, a non-negative one a
destination at or above it. -/
theorem C2_taken_exit_target (x : Ext) (op : Nat) (cc : CCFlags) (likely : Bool) (j : Jit)
    (hin : j.js.inDelaySlot = false) (d : Nat) :
    (Emit.WriteExit d 0 ∈ newCode j (BranchRSRTComp x op cc likely j) ↔
        d = branchTargetSpec j.js.compilerPC op) ∧
      (Emit.WriteExit d 0 ∈ newCode j (BranchRSZeroComp x op cc likely j) ↔
        d = branchTargetSpec j.js.compilerPC op) ∧
      (Emit.WriteExit d 0 ∈ newCode j (BranchFPFlag x op cc likely j) ↔
        d = branchTargetSpec j.js.compilerPC op) ∧
      (Emit.WriteExit d 0 ∈ newCode j (BranchVFPUFlag x op cc likely j) ↔
        d = branchTargetSpec j.js.compilerPC op) ∧
      (32768 ≤ op % 65536 → 4 * (65536 - op % 65536) ≤ j.js.compilerPC + 4 →
        j.js.compilerPC < U32 →
        branchTargetSpec j.js.compilerPC op =
          j.js.compilerPC + 4 - 4 * (65536 - op % 65536)) ∧
      (op % 65536 < 32768 → j.js.compilerPC + 4 + 4 * (op % 65536) < U32 →
        branchTargetSpec j.js.compilerPC op = j.js.compilerPC + 4 + 4 * (op % 65536)) := by
  refine ⟨?_, ?_, ?_, ?_, ?_, ?_⟩
  · rw [BranchRSRTComp_eq x op cc likely j hin]
    apply cond_takenExit
    intro d n
    by_cases h0 : _RT op = 0 <;> simp [h0]
  · rw [BranchRSZeroComp_eq x op cc likely j hin]
    apply cond_takenExit
    intro d n
    simp
  · rw [BranchFPFlag_eq x op cc likely j hin]
    apply cond_takenExit
    intro d n
    simp
  · rw [BranchVFPUFlag_eq x op cc likely j hin]
    apply cond_takenExit
    intro d n
    simp
  · intro h1 h2 h3
    unfold branchTargetSpec signExtend16
    unfold U32 at h3
    split <;> omega
  · intro h1 h2
    unfold branchTargetSpec signExtend16
    unfold U32 at h2
    split <;> omega

/-- C2 at a concrete input: `beq $0, $0` with immediate 0xFFFF at 0x08804000 goes back
to 0x08804000. -/
theorem C2_taken_exit_target_witness :
    j0.js.inDelaySlot = false ∧
      (Emit.WriteExit 0x08804000 0 ∈ newCode j0 (BranchRSRTComp x0 0x1000FFFF .CC_NZ false j0) ↔
        0x08804000 = branchTargetSpec j0.js.compilerPC 0x1000FFFF) :=
  ⟨rfl, (C2_taken_exit_target x0 0x1000FFFF .CC_NZ false j0 rfl 0x08804000).1⟩

theorem jump_off (op : Nat) : ((op &&& 0x3FFFFFF) <<< 2) % U32 = (op &&& 0x03FFFFFF) <<< 2 := by
  have h : op &&& 0x3FFFFFF = op % 67108864 := Nat.and_pow_two_sub_one_eq_mod op 26
  rw [h, Nat.shiftLeft_eq]
  unfold U32
  omega

theorem Comp_Jump_code (x : Ext) (op : Nat) (j : Jit) (hin : j.js.inDelaySlot = false) :
    (Comp_Jump x op j).code =
      j.code ++ .CompileDelaySlot false ::
        (if op >>> 26 = 2 then
          [.WriteExit ((j.js.compilerPC &&& 0xF0000000) ||| ((op &&& 0x03FFFFFF) <<< 2)) 0]
        else if op >>> 26 = 3 then
          [.MOV 32 (.M (.gprMem MIPS_REG_RA))
              (.Imm32 (u32add (x.delaySlotJs false j.js).compilerPC 8)),
            .WriteExit ((j.js.compilerPC &&& 0xF0000000) ||| ((op &&& 0x03FFFFFF) <<< 2)) 0]
        else []) := by
  unfold Comp_Jump
  rw [jump_off]
  by_cases h2 : op >>> 26 = 2
  · simp [hin, h2, CompileDelaySlot, Jit.emit, Jit.setCompiling]
  · by_cases h3 : op >>> 26 = 3
    · simp [hin, h3, CompileDelaySlot, Jit.emit, Jit.setCompiling]
    · simp only [hin, Bool.false_eq_true, if_false, h2, h3]
      simp [CompileDelaySlot, Jit.emit, Jit.setCompiling, Jit.dbg_assert]

/-- C3. For an opcode whose top six bits are 2 (j) or 3 (jal), outside a delay slot,
Comp_Jump writes exactly one exit record, with discriminator 0 and destination
(pc & 0xF0000000) | ((op & 0x03FFFFFF) << 2), and writes it after compiling the delay
slot: what it emits starts with the delay-slot compilation and ends with the exit. -/
theorem C3_jump_single_exit (x : Ext) (op : Nat) (j : Jit)
    (hin : j.js.inDelaySlot = false) (hop : op >>> 26 = 2 ∨ op >>> 26 = 3) :
    exitRecords (newCode j (Comp_Jump x op j)) =
        [((j.js.compilerPC &&& 0xF0000000) ||| ((op &&& 0x03FFFFFF) <<< 2), 0)] ∧
      ∃ mid : List Emit,
        newCode j (Comp_Jump x op j) =
          .CompileDelaySlot false :: mid ++
            [.WriteExit ((j.js.compilerPC &&& 0xF0000000) ||| ((op &&& 0x03FFFFFF) <<< 2)) 0] ∧
        delaySlotCount mid = 0 ∧ exitRecords mid = [] := by
  rw [newCode_append j _ _ (Comp_Jump_code x op j hin)]
  rcases hop with h | h
  · refine ⟨by simp [h, exitRecords], [], by simp [h], rfl, rfl⟩
  · refine ⟨by simp [h, exitRecords], [.MOV 32 (.M (.gprMem MIPS_REG_RA))
      (.Imm32 (u32add (x.delaySlotJs false j.js).compilerPC 8))], by simp [h], rfl, rfl⟩

/-- C3 at a concrete input: `jal 0x40` compiled at 0x08804000. -/
theorem C3_jump_single_exit_witness :
    j0.js.inDelaySlot = false ∧ (0x0C000010 >>> 26 = 2 ∨ 0x0C000010 >>> 26 = 3) ∧
      exitRecords (newCode j0 (Comp_Jump x0 0x0C000010 j0)) =
        [((j0.js.compilerPC &&& 0xF0000000) ||| ((0x0C000010 &&& 0x03FFFFFF) <<< 2), 0)] :=
  ⟨rfl, Or.inr (by decide),
    (C3_jump_single_exit x0 0x0C000010 j0 rfl (Or.inr (by decide))).1⟩

/-- C4. Outside a delay slot, each of the four conditional branch functions writes
exactly two exit records, first the taken path (branch target, 0), then the fallthrough
path (pc + 8, 1), and returns with js.compiling and js.inDelaySlot both false. -/
theorem C4_two_exits (x : Ext) (op : Nat) (cc : CCFlags) (likely : Bool) (j : Jit)
    (hin : j.js.inDelaySlot = false) (hpc : x.keepsPC) :
    (exitRecords (newCode j (BranchRSRTComp x op cc likely j)) =
          [(branchTargetSpec j.js.compilerPC op, 0), (u32add j.js.compilerPC 8, 1)] ∧
        (BranchRSRTComp x op cc likely j).js.compiling = false ∧
        (BranchRSRTComp x op cc likely j).js.inDelaySlot = false) ∧
      (exitRecords (newCode j (BranchRSZeroComp x op cc likely j)) =
          [(branchTargetSpec j.js.compilerPC op, 0), (u32add j.js.compilerPC 8, 1)] ∧
        (BranchRSZeroComp x op cc likely j).js.compiling = false ∧
        (BranchRSZeroComp x op cc likely j).js.inDelaySlot = false) ∧
      (exitRecords (newCode j (BranchFPFlag x op cc likely j)) =
          [(branchTargetSpec j.js.compilerPC op, 0), (u32add j.js.compilerPC 8, 1)] ∧
        (BranchFPFlag x op cc likely j).js.compiling = false ∧
        (BranchFPFlag x op cc likely j).js.inDelaySlot = false) ∧
      (exitRecords (newCode j (BranchVFPUFlag x op cc likely j)) =
          [(branchTargetSpec j.js.compilerPC op, 0), (u32add j.js.compilerPC 8, 1)] ∧
        (BranchVFPUFlag x op cc likely j).js.compiling = false ∧
        (BranchVFPUFlag x op cc likely j).js.inDelaySlot = false) := by
  refine ⟨?_, ?_, ?_, ?_⟩
  · rw [BranchRSRTComp_eq x op cc likely j hin]
    refine ⟨cond_exitRecords x cc likely _ j _ hpc ?_, (branchTail_js ..).2, (branchTail_js ..).1⟩
    by_cases h0 : _RT op = 0 <;> simp [h0, exitRecords]
  · rw [BranchRSZeroComp_eq x op cc likely j hin]
    exact ⟨cond_exitRecords x cc likely _ j _ hpc rfl, (branchTail_js ..).2, (branchTail_js ..).1⟩
  · rw [BranchFPFlag_eq x op cc likely j hin]
    exact ⟨cond_exitRecords x cc likely _ j _ hpc rfl, (branchTail_js ..).2, (branchTail_js ..).1⟩
  · rw [BranchVFPUFlag_eq x op cc likely j hin]
    exact ⟨cond_exitRecords x cc likely _ j _ hpc rfl, (branchTail_js ..).2, (branchTail_js ..).1⟩

/-- C4 at a concrete input: `bgtz $1` compiled at 0x08804000. -/
theorem C4_two_exits_witness :
    j0.js.inDelaySlot = false ∧ x0.keepsPC ∧
      exitRecords (newCode j0 (BranchRSZeroComp x0 0x1C200003 .CC_LE false j0)) =
        [(branchTargetSpec j0.js.compilerPC 0x1C200003, 0), (u32add j0.js.compilerPC 8, 1)] :=
  ⟨rfl, x0_keepsPC, (C4_two_exits x0 0x1C200003 .CC_LE false j0 rfl x0_keepsPC).2.1.1⟩


/-- C5, the claim as stated fails: entered inside a delay slot with the block still
compiling, Comp_Jump, Comp_JumpReg and the four branch functions return with
js.compiling still true. -/
theorem C5_counterexample :
    jSlot.js.inDelaySlot = true ∧
      (Comp_Jump x0 0x08000010 jSlot).js.compiling = true ∧
      (Comp_JumpReg x0 0x03E00008 jSlot).js.compiling = true ∧
      (BranchRSRTComp x0 0x10000002 .CC_NZ false jSlot).js.compiling = true ∧
      (BranchRSZeroComp x0 0x1C200003 .CC_LE false jSlot).js.compiling = true ∧
      (BranchFPFlag x0 0x45000002 .CC_NZ false jSlot).js.compiling = true ∧
      (BranchVFPUFlag x0 0x49000002 .CC_NZ false jSlot).js.compiling = true := by
  decide

/-- C5, amended. Entered with js.inDelaySlot true, each of the six functions only logs
the error: it emits no call at all (no host instruction, no delay slot, no exit) and
leaves js as it was. The four dispatchers of the conditional branch functions then
set js.compiling to false, still without emitting anything. -/
theorem C5_in_delay_slot_emits_nothing (x : Ext) (op : Nat) (cc : CCFlags) (likely : Bool)
    (j : Jit) (hin : j.js.inDelaySlot = true) :
    (∀ F ∈ [BranchRSRTComp x op cc likely, BranchRSZeroComp x op cc likely,
          BranchFPFlag x op cc likely, BranchVFPUFlag x op cc likely,
          Comp_Jump x op, Comp_JumpReg x op],
        (F j).code = j.code ∧ (F j).js = j.js ∧
          (F j).errors = j.errors ++ [.branchInDelaySlot j.js.compilerPC]) ∧
      (∀ D ∈ [Comp_RelBranch x op, Comp_RelBranchRI x op, Comp_FPUBranch x op,
          Comp_VBranch x op],
        (D j).code = j.code ∧ (D j).js.compiling = false ∧
          (D j).js.inDelaySlot = true) := by
  constructor
  · intro F hF
    simp only [List.mem_cons, List.mem_singleton, List.not_mem_nil, or_false] at hF
    rcases hF with rfl | rfl | rfl | rfl | rfl | rfl <;>
      simp [BranchRSRTComp, BranchRSZeroComp, BranchFPFlag, BranchVFPUFlag, Comp_Jump,
        Comp_JumpReg, hin, Jit.ERROR_LOG]
  · intro D hD
    simp only [List.mem_cons, List.mem_singleton, List.not_mem_nil, or_false] at hD
    rcases hD with rfl | rfl | rfl | rfl
    · unfold Comp_RelBranch
      split <;>
        simp [BranchRSRTComp, BranchRSZeroComp, hin, Jit.ERROR_LOG, Jit.dbg_assert,
          Jit.setCompiling]
    · unfold Comp_RelBranchRI
      split <;>
        simp [BranchRSZeroComp, hin, Jit.ERROR_LOG, Jit.dbg_assert, Jit.setCompiling]
    · unfold Comp_FPUBranch
      split <;>
        simp [BranchFPFlag, hin, Jit.ERROR_LOG, Jit.dbg_assert, Jit.setCompiling]
    · unfold Comp_VBranch
      split <;>
        simp [BranchVFPUFlag, hin, Jit.ERROR_LOG, Jit.dbg_assert, Jit.setCompiling]

/-- C5 amended, at a concrete input: `j 0x40` met inside a delay slot. -/
theorem C5_in_delay_slot_emits_nothing_witness :
    jSlot.js.inDelaySlot = true ∧ (Comp_Jump x0 0x08000010 jSlot).code = jSlot.code ∧
      (Comp_Jump x0 0x08000010 jSlot).js = jSlot.js :=
  ⟨rfl,
    ((C5_in_delay_slot_emits_nothing x0 0x08000010 .CC_Z false jSlot rfl).1
      (Comp_Jump x0 0x08000010) (by simp)).1,
    ((C5_in_delay_slot_emits_nothing x0 0x08000010 .CC_Z false jSlot rfl).1
      (Comp_Jump x0 0x08000010) (by simp)).2.1⟩


/-- C6, the claim as stated fails: for `jal 0x40` at 0x08804000 the store of pc + 8 to
the link register is emitted after the delay-slot compilation, and a delay slot that
copies the link register into `$2` gets the old value 0x08800100, not 0x08804008. -/
theorem C6_counterexample :
    0x0C000010 >>> 26 = 3 ∧ j0.js.inDelaySlot = false ∧
      newCode j0 (Comp_Jump x0 0x0C000010 j0) =
        [.CompileDelaySlot false,
          .MOV 32 (.M (.gprMem MIPS_REG_RA)) (.Imm32 0x08804008),
          .WriteExit 0x40 0] ∧
      (exec yCopyRA none (newCode j0 (Comp_Jump x0 0x0C000010 j0)) h0).2.host.r 2
        = 0x08800100 ∧
      (exec yCopyRA none (newCode j0 (Comp_Jump x0 0x0C000010 j0)) h0).2.host.r 31
        = 0x08804008 := by
  refine ⟨by decide, rfl, by decide, by decide, by decide⟩

/-- C6, amended. For a jal opcode compiled by Comp_Jump outside a delay slot, the store
of pc + 8 to the link register is emitted after the delay-slot compilation and before
the exit: the delay-slot code runs on the state before the store, and on exit the link
register holds pc + 8 whatever the delay slot wrote. -/
theorem C6_link_after_delay_slot (x : Ext) (op : Nat) (j : Jit)
    (hin : j.js.inDelaySlot = false) (hpc : x.keepsPC) (hop : op >>> 26 = 3) :
    newCode j (Comp_Jump x op j) =
        [.CompileDelaySlot false,
          .MOV 32 (.M (.gprMem MIPS_REG_RA)) (.Imm32 (u32add j.js.compilerPC 8)),
          .WriteExit ((j.js.compilerPC &&& 0xF0000000) ||| ((op &&& 0x03FFFFFF) <<< 2)) 0] ∧
      ∀ (y : HostExt) (h : Host),
        exec y none (newCode j (Comp_Jump x op j)) h =
          (newCode j (Comp_Jump x op j),
            .exit ((j.js.compilerPC &&& 0xF0000000) ||| ((op &&& 0x03FFFFFF) <<< 2)) 0
              ((y.delaySlotRun false h).setR MIPS_REG_RA (u32add j.js.compilerPC 8))) := by
  have hc : newCode j (Comp_Jump x op j) =
      [.CompileDelaySlot false,
        .MOV 32 (.M (.gprMem MIPS_REG_RA)) (.Imm32 (u32add j.js.compilerPC 8)),
        .WriteExit ((j.js.compilerPC &&& 0xF0000000) ||| ((op &&& 0x03FFFFFF) <<< 2)) 0] := by
    rw [newCode_append j _ _ (Comp_Jump_code x op j hin)]
    simp [hop, hpc _ _]
  refine ⟨hc, ?_⟩
  intro y h
  rw [hc]
  simp [exec, step, Host.read, Host.write]

/-- C6 amended, at a concrete input: `jal 0x40` compiled at 0x08804000. -/
theorem C6_link_after_delay_slot_witness :
    j0.js.inDelaySlot = false ∧ x0.keepsPC ∧ 0x0C000010 >>> 26 = 3 ∧
      newCode j0 (Comp_Jump x0 0x0C000010 j0) =
        [.CompileDelaySlot false,
          .MOV 32 (.M (.gprMem MIPS_REG_RA)) (.Imm32 (u32add j0.js.compilerPC 8)),
          .WriteExit ((j0.js.compilerPC &&& 0xF0000000)
            ||| ((0x0C000010 &&& 0x03FFFFFF) <<< 2)) 0] :=
  ⟨rfl, x0_keepsPC, by decide,
    (C6_link_after_delay_slot x0 0x0C000010 j0 rfl x0_keepsPC (by decide)).1⟩

theorem Comp_JumpReg_code (x : Ext) (op : Nat) (j : Jit) (hin : j.js.inDelaySlot = false)
    (hop : op &&& 0x3f = 8 ∨ op &&& 0x3f = 9) :
    (Comp_JumpReg x op j).code =
      j.code ++
        [.BindToRegister (_RS op) true false, .MOV 32 (.M .mipsPC) (.gprR (_RS op)),
          .MOV 32 (.M .savedPC) (.gprR (_RS op)), .CompileDelaySlot false] ++
        (if (x.delaySlotJs false j.js).compiling = true then
          .MOV 32 .EAX (.M .savedPC) ::
            (if op &&& 0x3f = 9 then
              [.MOV 32 (.M (.gprMem MIPS_REG_RA))
                (.Imm32 (u32add (x.delaySlotJs false j.js).compilerPC 8))]
            else []) ++ [.WriteExitDestInEAX]
        else []) := by
  unfold Comp_JumpReg
  by_cases hc : (x.delaySlotJs false j.js).compiling = true
  · rcases hop with h | h <;>
      simp [hin, hc, h, CompileDelaySlot, Jit.emit, Jit.setCompiling]
  · simp [hin, hc, CompileDelaySlot, Jit.emit, Jit.setCompiling]

/-- C7. For a jr or jalr opcode compiled by Comp_JumpReg outside a delay slot, and for
any delay-slot code that leaves the scratch cell savedPC alone: Comp_JumpReg stores
register rs to savedPC, then compiles the delay slot, then reloads EAX from savedPC,
with nothing else in between; when the block is still compiling after the delay slot,
the emitted code leaves through WriteExitDestInEAX with EAX equal to the value rs held
before the delay-slot code ran; when the delay slot ended the block, Comp_JumpReg hands
no destination to any exit. -/
theorem C7_jump_register_latched (x : Ext) (op : Nat) (j : Jit) (y : HostExt) (h : Host)
    (hin : j.js.inDelaySlot = false) (hop : op &&& 0x3f = 8 ∨ op &&& 0x3f = 9)
    (hsaved : ∀ h1 : Host, (y.delaySlotRun false h1).savedPC = h1.savedPC) :
    if (x.delaySlotJs false j.js).compiling = true then
      (∃ link : List Emit,
        (∀ e ∈ link, ∃ v, e = .MOV 32 (.M (.gprMem MIPS_REG_RA)) (.Imm32 v)) ∧
        newCode j (Comp_JumpReg x op j) =
          [.BindToRegister (_RS op) true false, .MOV 32 (.M .mipsPC) (.gprR (_RS op)),
            .MOV 32 (.M .savedPC) (.gprR (_RS op)), .CompileDelaySlot false,
            .MOV 32 .EAX (.M .savedPC)] ++ link ++ [.WriteExitDestInEAX]) ∧
      (exec y none (newCode j (Comp_JumpReg x op j)) h).1 = newCode j (Comp_JumpReg x op j) ∧
      (exec y none (newCode j (Comp_JumpReg x op j)) h).2.dest = some (h.r (_RS op))
    else
      newCode j (Comp_JumpReg x op j) =
        [.BindToRegister (_RS op) true false, .MOV 32 (.M .mipsPC) (.gprR (_RS op)),
          .MOV 32 (.M .savedPC) (.gprR (_RS op)), .CompileDelaySlot false] := by
  rw [newCode_append j _ _ (by rw [Comp_JumpReg_code x op j hin hop, List.append_assoc])]
  by_cases hc : (x.delaySlotJs false j.js).compiling = true
  · simp only [hc, if_true]
    by_cases h9 : op &&& 0x3f = 9
    · refine ⟨⟨[.MOV 32 (.M (.gprMem MIPS_REG_RA))
          (.Imm32 (u32add (x.delaySlotJs false j.js).compilerPC 8))], ?_, ?_⟩, ?_, ?_⟩
      · intro e he
        exact ⟨_, by simpa using he⟩
      · simp [h9]
      · simp [h9, exec, step, Host.read, Host.write]
      · simp [h9, exec, step, Host.read, Host.write, Outcome.dest, Host.setR, hsaved]
    · refine ⟨⟨[], by simp, by simp [h9]⟩, ?_, ?_⟩
      · simp [h9, exec, step, Host.read, Host.write]
      · simp [h9, exec, step, Host.read, Host.write, Outcome.dest, hsaved]
  · simp [hc]

/-- C7 at a concrete input: `jr $31` at 0x08804000 over a delay slot that adds 4 to
`$31`; the jump goes to the old value 0x08800100. -/
theorem C7_jump_register_latched_witness :
    j0.js.inDelaySlot = false ∧ (0x03E00008 &&& 0x3f = 8 ∨ 0x03E00008 &&& 0x3f = 9) ∧
      (∀ h1 : Host, (yBumpRA.delaySlotRun false h1).savedPC = h1.savedPC) ∧
      (exec yBumpRA none (newCode j0 (Comp_JumpReg x0 0x03E00008 j0)) h0).2.dest
        = some 0x08800100 ∧
      (exec yBumpRA none (newCode j0 (Comp_JumpReg x0 0x03E00008 j0)) h0).2.host.r 31
        = 0x08800104 := by
  have hw := C7_jump_register_latched x0 0x03E00008 j0 yBumpRA h0 rfl (Or.inl (by decide))
    (fun _ => rfl)
  have hc : (x0.delaySlotJs false j0.js).compiling = true := rfl
  rw [if_pos hc] at hw
  exact ⟨rfl, Or.inl (by decide), fun _ => rfl, hw.2.2, by decide⟩


/-- C10, the claim as stated fails: `beq $0, $0` with a branch offset of 8 bytes
(immediate field 2) compiled at 0x08804000 over `addiu $1, $1, 1` runs the delay slot
once and leaves through the taken exit, but that exit resumes at pc + 12 = 0x0880400C,
not at pc + 16; no other reading of `+8` (immediate field 8, or target pc + 8) gives
pc + 16 either. -/
theorem C10_counterexample :
    exitRecords (newCode j0 (Comp_RelBranch x0 0x10000002 j0)) =
        [(0x0880400C, 0), (0x08804008, 1)] ∧
      (exec yInc none (newCode j0 (Comp_RelBranch x0 0x10000002 j0)) h0).2.dest
        = some 0x0880400C ∧
      (exec yInc none (newCode j0 (Comp_RelBranch x0 0x10000002 j0)) h0).2.host.r 1 = 1 ∧
      0x0880400C ≠ j0.js.compilerPC + 16 ∧
      (exec yInc none (newCode j0 (Comp_RelBranch x0 0x10000008 j0)) h0).2.dest
        = some (j0.js.compilerPC + 36) ∧
      (exec yInc none (newCode j0 (Comp_RelBranch x0 0x10000001 j0)) h0).2.dest
        = some (j0.js.compilerPC + 8) := by
  refine ⟨by decide, by decide, by decide, by decide, by decide, by decide⟩

/-- C10, amended. Compiling `beq $0, $0` with a branch offset of 8 bytes at guest
address pc, outside a delay slot, over delay-slot code that keeps the host flags when
compiled with flag true, and run with guest register 0 equal to 0: the delay slot is
compiled exactly once and run exactly once, and the run leaves through the taken-path
exit, which resumes at pc + 4 + 8 = pc + 12 (modulo 2^32); a delay slot that increments
register 1 has then incremented it exactly once. -/
theorem C10_beq_always_taken (x : Ext) (j : Jit) (y : HostExt) (h : Host)
    (hin : j.js.inDelaySlot = false) (hpc : x.keepsPC)
    (hflags : ∀ h1 : Host, (y.delaySlotRun true h1).flags = h1.flags)
    (hzero : h.r 0 = 0) :
    delaySlotCount (newCode j (Comp_RelBranch x 0x10000002 j)) = 1 ∧
      delaySlotCount (exec y none (newCode j (Comp_RelBranch x 0x10000002 j)) h).1 = 1 ∧
      (exec y none (newCode j (Comp_RelBranch x 0x10000002 j)) h).2 =
        .exit (u32add j.js.compilerPC 12) 0
          (y.delaySlotRun true { h with flags := cmpFlags 0 0 }) ∧
      ((∀ h1 : Host, (y.delaySlotRun true h1).r 1 = u32add (h1.r 1) 1) →
        (exec y none (newCode j (Comp_RelBranch x 0x10000002 j)) h).2.host.r 1
          = u32add (h.r 1) 1) := by
  have ht : branchTargetSpec j.js.compilerPC 0x10000002 = u32add j.js.compilerPC 12 := by
    unfold branchTargetSpec signExtend16 u32add U32
    norm_num
    omega
  have hc : newCode j (Comp_RelBranch x 0x10000002 j) =
      [.KillImmediate 0 true true, .CMP 32 (.gprR 0) (.Imm32 0), .FlushAll,
        .CompileDelaySlot true, .J_CC .CC_NZ true (j.code.length + 3 + 1),
        .WriteExit (u32add j.js.compilerPC 12) 0, .SetJumpTarget (j.code.length + 3 + 1),
        .WriteExit (u32add j.js.compilerPC 8) 1] := by
    have hd : Comp_RelBranch x 0x10000002 j =
        (BranchRSRTComp x 0x10000002 .CC_NZ false j).setCompiling false := by
      simp [Comp_RelBranch]
    have hn : newCode j ((BranchRSRTComp x 0x10000002 .CC_NZ false j).setCompiling false) =
        newCode j (BranchRSRTComp x 0x10000002 .CC_NZ false j) := rfl
    have hrs : _RS 0x10000002 = 0 := by decide
    have hrt : _RT 0x10000002 = 0 := by decide
    rw [hd, hn, BranchRSRTComp_eq x _ _ _ j hin, cond_newCode_pc x _ _ _ j _ hpc, ht, hrs, hrt]
    simp
  have hz : (cmpFlags 0 0).ZF = true := by decide
  rw [hc]
  refine ⟨by simp [delaySlotCount, Emit.isDelaySlot], ?_, ?_, ?_⟩
  · simp [exec, step, Host.read, hzero, CCFlags.holds, hflags, hz, delaySlotCount,
      Emit.isDelaySlot]
  · simp [exec, step, Host.read, hzero, CCFlags.holds, hflags, hz]
  · intro hinc
    simp [exec, step, Host.read, hzero, CCFlags.holds, hflags, hz, Outcome.host, hinc]

/-- C10 amended, at a concrete input: the branch at 0x08804000 over `addiu $1, $1, 1`. -/
theorem C10_beq_always_taken_witness :
    j0.js.inDelaySlot = false ∧ x0.keepsPC ∧
      (∀ h1 : Host, (yInc.delaySlotRun true h1).flags = h1.flags) ∧ h0.r 0 = 0 ∧
      (exec yInc none (newCode j0 (Comp_RelBranch x0 0x10000002 j0)) h0).2 =
        .exit (u32add j0.js.compilerPC 12) 0
          (yInc.delaySlotRun true { h0 with flags := cmpFlags 0 0 }) :=
  ⟨rfl, x0_keepsPC, fun _ => rfl, rfl,
    (C10_beq_always_taken x0 j0 yInc h0 rfl x0_keepsPC (fun _ => rfl) rfl).2.2.1⟩

/-! ## Branch conditions under the x86 flags -/

theorem holds_Z_cmp (a b : Nat) (ha : a < U32) (hb : b < U32) :
    CCFlags.CC_Z.holds (cmpFlags a b) = (a == b) := by
  unfold U32 at ha hb
  rw [Bool.eq_iff_iff]
  simp only [CCFlags.holds, cmpFlags, U32, beq_iff_eq]
  omega

theorem holds_NZ_cmp (a b : Nat) (ha : a < U32) (hb : b < U32) :
    CCFlags.CC_NZ.holds (cmpFlags a b) = (a != b) := by
  have h := holds_Z_cmp a b ha hb
  simp only [CCFlags.holds] at h ⊢
  rw [h]
  rfl

theorem toS32_of_lt (a : Nat) (ha : a < U32) :
    toS32 a = if a < 2147483648 then (a : Int) else (a : Int) - 4294967296 := by
  unfold toS32
  rw [Nat.mod_eq_of_lt ha]

/-- Flags of the comparison of a 32-bit word with zero. -/
theorem cmpFlags_zero (a : Nat) (ha : a < U32) :
    cmpFlags a 0 =
      { ZF := a == 0, SF := decide (2147483648 ≤ a), OF := false, CF := false } := by
  have hs := toS32_of_lt a ha
  have h0 : toS32 0 = 0 := by decide
  have hd : (a % U32 + U32 - 0 % U32) % U32 = a := by
    unfold U32 at ha ⊢
    omega
  unfold cmpFlags
  simp only [hd, h0]
  simp
  rw [hs]
  unfold U32 at ha
  split <;> omega

theorem holds_L_cmp0 (a : Nat) (ha : a < U32) :
    CCFlags.CC_L.holds (cmpFlags a 0) = decide (toS32 a < 0) := by
  rw [cmpFlags_zero a ha, toS32_of_lt a ha]
  by_cases h : a < 2147483648
  · have h2 : ¬ 2147483648 ≤ a := by omega
    have h3 : ¬ ((a : Int) < 0) := by omega
    simp [CCFlags.holds, h, h2, h3]
  · have h2 : 2147483648 ≤ a := by omega
    have h3 : (a : Int) - 4294967296 < 0 := by unfold U32 at ha; omega
    simp [CCFlags.holds, h, h2, h3]

theorem holds_GE_cmp0 (a : Nat) (ha : a < U32) :
    CCFlags.CC_GE.holds (cmpFlags a 0) = decide (0 ≤ toS32 a) := by
  rw [cmpFlags_zero a ha, toS32_of_lt a ha]
  by_cases h : a < 2147483648
  · have h2 : ¬ 2147483648 ≤ a := by omega
    have h3 : (0 : Int) ≤ (a : Int) := by omega
    simp [CCFlags.holds, h, h2, h3]
  · have h2 : 2147483648 ≤ a := by omega
    have h3 : ¬ ((0 : Int) ≤ (a : Int) - 4294967296) := by unfold U32 at ha; omega
    simp [CCFlags.holds, h, h2, h3]

theorem holds_G_cmp0 (a : Nat) (ha : a < U32) :
    CCFlags.CC_G.holds (cmpFlags a 0) = decide (0 < toS32 a) := by
  rw [cmpFlags_zero a ha, toS32_of_lt a ha]
  by_cases h : a < 2147483648
  · have h2 : ¬ 2147483648 ≤ a := by omega
    by_cases hz : a = 0
    · subst hz
      simp [CCFlags.holds]
    · have h3 : (0 : Int) < (a : Int) := by omega
      simp [CCFlags.holds, h, h2, h3, hz]
  · have h2 : 2147483648 ≤ a := by omega
    have hz : ¬ a = 0 := by omega
    have h3 : ¬ ((0 : Int) < (a : Int) - 4294967296) := by unfold U32 at ha; omega
    simp [CCFlags.holds, h, h2, h3, hz]

theorem holds_LE_cmp0 (a : Nat) (ha : a < U32) :
    CCFlags.CC_LE.holds (cmpFlags a 0) = decide (toS32 a ≤ 0) := by
  rw [cmpFlags_zero a ha, toS32_of_lt a ha]
  by_cases h : a < 2147483648
  · have h2 : ¬ 2147483648 ≤ a := by omega
    by_cases hz : a = 0
    · subst hz
      simp [CCFlags.holds]
    · have h3 : ¬ ((a : Int) ≤ 0) := by omega
      simp [CCFlags.holds, h, h2, h3, hz]
  · have h2 : 2147483648 ≤ a := by omega
    have h3 : (a : Int) - 4294967296 ≤ 0 := by unfold U32 at ha; omega
    simp [CCFlags.holds, h, h2, h3]

/-- The run of the code of a conditional branch function, from the calls it makes
before the shared tail. -/
theorem cond_run (x : Ext) (cc : CCFlags) (likely : Bool) (t : Nat) (j : Jit)
    (pre : List Emit) (hpc : x.keepsPC) (hs : ∀ e ∈ pre, e.straight = true)
    (hd : delaySlotCount pre = 0) (y : HostExt) (h : Host)
    (hflags : ∀ h1 : Host, (y.delaySlotRun true h1).flags = h1.flags) :
    (exec y none (newCode j (branchTail x cc likely false t
        { j with code := j.code ++ pre })) h).2 =
        (if cc.holds (runStraight y h pre).flags then
          .exit (u32add j.js.compilerPC 8) 1
            (if likely then runStraight y h pre
              else y.delaySlotRun true (runStraight y h pre))
        else .exit t 0 (y.delaySlotRun (!likely) (runStraight y h pre))) ∧
      delaySlotCount (exec y none (newCode j (branchTail x cc likely false t
        { j with code := j.code ++ pre })) h).1 =
        (if likely && cc.holds (runStraight y h pre).flags then 0 else 1) := by
  have key : ∀ l : List Emit, delaySlotCount (pre ++ l) = delaySlotCount l := by
    intro l
    unfold delaySlotCount at hd ⊢
    rw [List.countP_append, hd, Nat.zero_add]
  rw [cond_newCode_pc x cc likely t j pre hpc]
  cases likely
  · simp only [Bool.false_eq_true, if_false, Bool.false_and, Bool.not_false]
    rw [exec_straight y pre _ h hs, exec_notLikely_tail, hflags]
    by_cases hc : cc.holds (runStraight y h pre).flags = true
    · simp only [hc, if_true, key]
      constructor <;> first | rfl | trivial
    · simp only [hc, if_false, key]
      exact ⟨rfl, rfl⟩
  · simp only [if_true, Bool.true_and, Bool.not_true]
    rw [exec_straight y pre _ h hs, exec_likely_tail]
    by_cases hc : cc.holds (runStraight y h pre).flags = true
    · simp only [hc, if_true, key]
      constructor <;> first | rfl | trivial
    · simp only [hc, if_false, key]
      exact ⟨rfl, rfl⟩

/-- From the run of a conditional branch whose jump tests flags `f` with a condition
code that holds exactly when `taken` fails, to `NegatedCondition`. -/
theorem negated_of_run (x : Ext) (cc : CCFlags) (likely taken : Bool) (t : Nat) (j : Jit)
    (pre : List Emit) (hpc : x.keepsPC) (hs : ∀ e ∈ pre, e.straight = true)
    (hd : delaySlotCount pre = 0) (y : HostExt) (h : Host)
    (hflags : ∀ h1 : Host, (y.delaySlotRun true h1).flags = h1.flags)
    (a b : OpArg) (hcmp : Emit.CMP 32 a b ∈ pre)
    (hpre : runStraight y h pre = { h with flags := cmpFlags (h.read a) (h.read b) })
    (hcc : cc.holds (cmpFlags (h.read a) (h.read b)) = !taken) :
    NegatedCondition taken likely t (u32add j.js.compilerPC 8) h
      (newCode j (branchTail x cc likely false t { j with code := j.code ++ pre }))
      (exec y none (newCode j (branchTail x cc likely false t
        { j with code := j.code ++ pre })) h) := by
  obtain ⟨hout, hcount⟩ := cond_run x cc likely t j pre hpc hs hd y h hflags
  rw [hpre] at hout hcount
  simp only [hcc] at hout hcount
  refine ⟨?_, ?_, ?_, ?_, ?_⟩
  · rw [cond_newCode_pc x cc likely t j pre hpc]
    cases likely
    · exact ⟨cc, j.code.length + pre.length + 1, a, b, by simp [hcmp], by simp, hcc⟩
    · exact ⟨cc, j.code.length + pre.length, a, b, by simp [hcmp], by simp, hcc⟩
  · rw [hout]
    cases taken <;> simp [Outcome.exit_num]
  · rw [hout]
    cases taken <;> simp [Outcome.dest]
  · rw [hcount]
  · intro hl ht
    rw [hout]
    simp [hl, ht, Outcome.host]

theorem RSRT_negated (x : Ext) (op : Nat) (cc : CCFlags) (likely taken : Bool) (j : Jit)
    (y : HostExt) (h : Host) (hin : j.js.inDelaySlot = false) (hpc : x.keepsPC)
    (hflags : ∀ h1 : Host, (y.delaySlotRun true h1).flags = h1.flags)
    (hzero : h.r 0 = 0)
    (hcc : cc.holds (cmpFlags (h.r (_RS op)) (h.r (_RT op))) = !taken) :
    NegatedCondition taken likely (branchTargetSpec j.js.compilerPC op)
      (u32add j.js.compilerPC 8) h (newCode j (BranchRSRTComp x op cc likely j))
      (exec y none (newCode j (BranchRSRTComp x op cc likely j)) h) := by
  rw [BranchRSRTComp_eq x op cc likely j hin]
  by_cases h0 : _RT op = 0
  · have hrt : h.r (_RT op) = 0 := by rw [h0, hzero]
    rw [hrt] at hcc
    simp only [h0, if_true]
    exact negated_of_run x cc likely taken _ j
      [.KillImmediate (_RS op) true true, .CMP 32 (.gprR (_RS op)) (.Imm32 0), .FlushAll] hpc
      (by intro e he; simp at he; rcases he with rfl | rfl | rfl <;> rfl) rfl y h hflags
      (.gprR (_RS op)) (.Imm32 0) (by simp) (by simp [runStraight, step, Host.read])
      (by simpa [Host.read] using hcc)
  · simp only [h0, if_false]
    exact negated_of_run x cc likely taken _ j
      [.BindToRegister (_RS op) true false, .CMP 32 (.gprR (_RS op)) (.gprR (_RT op)),
        .FlushAll] hpc
      (by intro e he; simp at he; rcases he with rfl | rfl | rfl <;> rfl) rfl y h hflags
      (.gprR (_RS op)) (.gprR (_RT op)) (by simp) (by simp [runStraight, step, Host.read])
      (by simpa [Host.read] using hcc)

theorem RSZero_negated (x : Ext) (op : Nat) (cc : CCFlags) (likely taken : Bool) (j : Jit)
    (y : HostExt) (h : Host) (hin : j.js.inDelaySlot = false) (hpc : x.keepsPC)
    (hflags : ∀ h1 : Host, (y.delaySlotRun true h1).flags = h1.flags)
    (hcc : cc.holds (cmpFlags (h.r (_RS op)) 0) = !taken) :
    NegatedCondition taken likely (branchTargetSpec j.js.compilerPC op)
      (u32add j.js.compilerPC 8) h (newCode j (BranchRSZeroComp x op cc likely j))
      (exec y none (newCode j (BranchRSZeroComp x op cc likely j)) h) := by
  rw [BranchRSZeroComp_eq x op cc likely j hin]
  exact negated_of_run x cc likely taken _ j
    [.BindToRegister (_RS op) true false, .CMP 32 (.gprR (_RS op)) (.Imm32 0), .FlushAll] hpc
    (by intro e he; simp at he; rcases he with rfl | rfl | rfl <;> rfl) rfl y h hflags
    (.gprR (_RS op)) (.Imm32 0) (by simp) (by simp [runStraight, step, Host.read])
    (by simpa [Host.read] using hcc)

theorem negated_RSRT_dispatch (x : Ext) (op : Nat) (cc : CCFlags) (likely taken : Bool)
    (j D : Jit) (y : HostExt) (h : Host) (hin : j.js.inDelaySlot = false) (hpc : x.keepsPC)
    (hflags : ∀ h1 : Host, (y.delaySlotRun true h1).flags = h1.flags) (hzero : h.r 0 = 0)
    (hD : D = (BranchRSRTComp x op cc likely j).setCompiling false)
    (hcc : cc.holds (cmpFlags (h.r (_RS op)) (h.r (_RT op))) = !taken) :
    NegatedCondition taken likely (branchTargetSpec j.js.compilerPC op)
      (u32add j.js.compilerPC 8) h (newCode j D) (exec y none (newCode j D) h) := by
  have hn : newCode j D = newCode j (BranchRSRTComp x op cc likely j) := by rw [hD]; rfl
  rw [hn]
  exact RSRT_negated x op cc likely taken j y h hin hpc hflags hzero hcc

theorem negated_RSZero_dispatch (x : Ext) (op : Nat) (cc : CCFlags) (likely taken : Bool)
    (j D : Jit) (y : HostExt) (h : Host) (hin : j.js.inDelaySlot = false) (hpc : x.keepsPC)
    (hflags : ∀ h1 : Host, (y.delaySlotRun true h1).flags = h1.flags)
    (hD : D = (BranchRSZeroComp x op cc likely j).setCompiling false)
    (hcc : cc.holds (cmpFlags (h.r (_RS op)) 0) = !taken) :
    NegatedCondition taken likely (branchTargetSpec j.js.compilerPC op)
      (u32add j.js.compilerPC 8) h (newCode j D) (exec y none (newCode j D) h) := by
  have hn : newCode j D = newCode j (BranchRSZeroComp x op cc likely j) := by rw [hD]; rfl
  rw [hn]
  exact RSZero_negated x op cc likely taken j y h hin hpc hflags hcc

theorem not_decide_le (s : Int) : decide (0 < s) = !decide (s ≤ 0) := by
  by_cases h : s ≤ 0
  · have h2 : ¬ 0 < s := by omega
    simp [h, h2]
  · have h2 : 0 < s := by omega
    simp [h, h2]

theorem not_decide_lt (s : Int) : decide (0 ≤ s) = !decide (s < 0) := by
  by_cases h : s < 0
  · have h2 : ¬ 0 ≤ s := by omega
    simp [h, h2]
  · have h2 : 0 ≤ s := by omega
    simp [h, h2]

/-- C11. For every branch dispatched by Comp_RelBranch (primary opcodes 4-7, 20-23) and
Comp_RelBranchRI (rt field 0-3), compiled outside a delay slot and run on 32-bit
register values with register 0 equal to 0: the conditional jump tests the flags of the
emitted CMP with the negation of the MIPS condition (beq rs == rt, bne rs != rt, blez
(s32)rs <= 0, bgtz (s32)rs > 0, bltz (s32)rs < 0, bgez (s32)rs >= 0, on the values
before the delay slot), so the run leaves through the taken exit exactly when the
guest condition holds and through the exit to pc + 8 otherwise; the likely flag passed
is true exactly for opcodes 20-23 and rt fields 2-3, and a likely branch that is not
taken runs no delay-slot code and leaves the registers as they were. -/
theorem C11_jump_on_negated_condition (x : Ext) (op : Nat) (j : Jit) (y : HostExt) (h : Host)
    (hin : j.js.inDelaySlot = false) (hpc : x.keepsPC)
    (hflags : ∀ h1 : Host, (y.delaySlotRun true h1).flags = h1.flags)
    (hregs : ∀ k, h.r k < U32) (hzero : h.r 0 = 0) :
    (op >>> 26 ∈ [4, 5, 6, 7, 20, 21, 22, 23] →
        NegatedCondition (relBranchTaken op h) (relBranchLikely op)
            (branchTargetSpec j.js.compilerPC op) (u32add j.js.compilerPC 8) h
            (newCode j (Comp_RelBranch x op j))
            (exec y none (newCode j (Comp_RelBranch x op j)) h) ∧
          ∃ cc : CCFlags,
            Comp_RelBranch x op j =
                (BranchRSRTComp x op cc (relBranchLikely op) j).setCompiling false ∨
              Comp_RelBranch x op j =
                (BranchRSZeroComp x op cc (relBranchLikely op) j).setCompiling false) ∧
      ((op >>> 16) &&& 0x1F ∈ [0, 1, 2, 3] →
        NegatedCondition (relBranchRITaken op h) (relBranchRILikely op)
            (branchTargetSpec j.js.compilerPC op) (u32add j.js.compilerPC 8) h
            (newCode j (Comp_RelBranchRI x op j))
            (exec y none (newCode j (Comp_RelBranchRI x op j)) h) ∧
          ∃ cc : CCFlags,
            Comp_RelBranchRI x op j =
              (BranchRSZeroComp x op cc (relBranchRILikely op) j).setCompiling false) := by
  have ha := hregs (_RS op)
  have hb := hregs (_RT op)
  constructor
  · intro hop
    simp only [List.mem_cons, List.mem_singleton, List.not_mem_nil, or_false] at hop
    rcases hop with h26 | h26 | h26 | h26 | h26 | h26 | h26 | h26
    · have hD : Comp_RelBranch x op j =
          (BranchRSRTComp x op .CC_NZ false j).setCompiling false := by
        simp [Comp_RelBranch, h26]
      have hL : relBranchLikely op = false := by simp [relBranchLikely, h26]
      have hT : relBranchTaken op h = (h.r (_RS op) == h.r (_RT op)) := by
        unfold relBranchTaken
        rw [h26]
      rw [hL, hT]
      exact ⟨negated_RSRT_dispatch x op .CC_NZ false _ j _ y h hin hpc hflags hzero hD
        (by rw [holds_NZ_cmp _ _ ha hb]; rfl), .CC_NZ, Or.inl hD⟩
    · have hD : Comp_RelBranch x op j =
          (BranchRSRTComp x op .CC_Z false j).setCompiling false := by
        simp [Comp_RelBranch, h26]
      have hL : relBranchLikely op = false := by simp [relBranchLikely, h26]
      have hT : relBranchTaken op h = (h.r (_RS op) != h.r (_RT op)) := by
        unfold relBranchTaken
        rw [h26]
      rw [hL, hT]
      exact ⟨negated_RSRT_dispatch x op .CC_Z false _ j _ y h hin hpc hflags hzero hD
        (by rw [holds_Z_cmp _ _ ha hb]; simp [bne]), .CC_Z, Or.inl hD⟩
    · have hD : Comp_RelBranch x op j =
          (BranchRSZeroComp x op .CC_G false j).setCompiling false := by
        simp [Comp_RelBranch, h26]
      have hL : relBranchLikely op = false := by simp [relBranchLikely, h26]
      have hT : relBranchTaken op h = decide (toS32 (h.r (_RS op)) ≤ 0) := by
        unfold relBranchTaken
        rw [h26]
      rw [hL, hT]
      exact ⟨negated_RSZero_dispatch x op .CC_G false _ j _ y h hin hpc hflags hD
        (by rw [holds_G_cmp0 _ ha]; exact not_decide_le _), .CC_G, Or.inr hD⟩
    · have hD : Comp_RelBranch x op j =
          (BranchRSZeroComp x op .CC_LE false j).setCompiling false := by
        simp [Comp_RelBranch, h26]
      have hL : relBranchLikely op = false := by simp [relBranchLikely, h26]
      have hT : relBranchTaken op h = decide (0 < toS32 (h.r (_RS op))) := by
        unfold relBranchTaken
        rw [h26]
      rw [hL, hT]
      exact ⟨negated_RSZero_dispatch x op .CC_LE false _ j _ y h hin hpc hflags hD
        (by rw [holds_LE_cmp0 _ ha, not_decide_le]; simp), .CC_LE, Or.inr hD⟩
    · have hD : Comp_RelBranch x op j =
          (BranchRSRTComp x op .CC_NZ true j).setCompiling false := by
        simp [Comp_RelBranch, h26]
      have hL : relBranchLikely op = true := by simp [relBranchLikely, h26]
      have hT : relBranchTaken op h = (h.r (_RS op) == h.r (_RT op)) := by
        unfold relBranchTaken
        rw [h26]
      rw [hL, hT]
      exact ⟨negated_RSRT_dispatch x op .CC_NZ true _ j _ y h hin hpc hflags hzero hD
        (by rw [holds_NZ_cmp _ _ ha hb]; rfl), .CC_NZ, Or.inl hD⟩
    · have hD : Comp_RelBranch x op j =
          (BranchRSRTComp x op .CC_Z true j).setCompiling false := by
        simp [Comp_RelBranch, h26]
      have hL : relBranchLikely op = true := by simp [relBranchLikely, h26]
      have hT : relBranchTaken op h = (h.r (_RS op) != h.r (_RT op)) := by
        unfold relBranchTaken
        rw [h26]
      rw [hL, hT]
      exact ⟨negated_RSRT_dispatch x op .CC_Z true _ j _ y h hin hpc hflags hzero hD
        (by rw [holds_Z_cmp _ _ ha hb]; simp [bne]), .CC_Z, Or.inl hD⟩
    · have hD : Comp_RelBranch x op j =
          (BranchRSZeroComp x op .CC_G true j).setCompiling false := by
        simp [Comp_RelBranch, h26]
      have hL : relBranchLikely op = true := by simp [relBranchLikely, h26]
      have hT : relBranchTaken op h = decide (toS32 (h.r (_RS op)) ≤ 0) := by
        unfold relBranchTaken
        rw [h26]
      rw [hL, hT]
      exact ⟨negated_RSZero_dispatch x op .CC_G true _ j _ y h hin hpc hflags hD
        (by rw [holds_G_cmp0 _ ha]; exact not_decide_le _), .CC_G, Or.inr hD⟩
    · have hD : Comp_RelBranch x op j =
          (BranchRSZeroComp x op .CC_LE true j).setCompiling false := by
        simp [Comp_RelBranch, h26]
      have hL : relBranchLikely op = true := by simp [relBranchLikely, h26]
      have hT : relBranchTaken op h = decide (0 < toS32 (h.r (_RS op))) := by
        unfold relBranchTaken
        rw [h26]
      rw [hL, hT]
      exact ⟨negated_RSZero_dispatch x op .CC_LE true _ j _ y h hin hpc hflags hD
        (by rw [holds_LE_cmp0 _ ha, not_decide_le]; simp), .CC_LE, Or.inr hD⟩
  · intro hop
    simp only [List.mem_cons, List.mem_singleton, List.not_mem_nil, or_false] at hop
    rcases hop with h16 | h16 | h16 | h16
    · have hD : Comp_RelBranchRI x op j =
          (BranchRSZeroComp x op .CC_GE false j).setCompiling false := by
        simp [Comp_RelBranchRI, h16]
      have hL : relBranchRILikely op = false := by simp [relBranchRILikely, h16]
      have hT : relBranchRITaken op h = decide (toS32 (h.r (_RS op)) < 0) := by
        unfold relBranchRITaken
        rw [h16]
      rw [hL, hT]
      exact ⟨negated_RSZero_dispatch x op .CC_GE false _ j _ y h hin hpc hflags hD
        (by rw [holds_GE_cmp0 _ ha]; exact not_decide_lt _), .CC_GE, hD⟩
    · have hD : Comp_RelBranchRI x op j =
          (BranchRSZeroComp x op .CC_L false j).setCompiling false := by
        simp [Comp_RelBranchRI, h16]
      have hL : relBranchRILikely op = false := by simp [relBranchRILikely, h16]
      have hT : relBranchRITaken op h = decide (0 ≤ toS32 (h.r (_RS op))) := by
        unfold relBranchRITaken
        rw [h16]
      rw [hL, hT]
      exact ⟨negated_RSZero_dispatch x op .CC_L false _ j _ y h hin hpc hflags hD
        (by rw [holds_L_cmp0 _ ha, not_decide_lt]; simp), .CC_L, hD⟩
    · have hD : Comp_RelBranchRI x op j =
          (BranchRSZeroComp x op .CC_GE true j).setCompiling false := by
        simp [Comp_RelBranchRI, h16]
      have hL : relBranchRILikely op = true := by simp [relBranchRILikely, h16]
      have hT : relBranchRITaken op h = decide (toS32 (h.r (_RS op)) < 0) := by
        unfold relBranchRITaken
        rw [h16]
      rw [hL, hT]
      exact ⟨negated_RSZero_dispatch x op .CC_GE true _ j _ y h hin hpc hflags hD
        (by rw [holds_GE_cmp0 _ ha]; exact not_decide_lt _), .CC_GE, hD⟩
    · have hD : Comp_RelBranchRI x op j =
          (BranchRSZeroComp x op .CC_L true j).setCompiling false := by
        simp [Comp_RelBranchRI, h16]
      have hL : relBranchRILikely op = true := by simp [relBranchRILikely, h16]
      have hT : relBranchRITaken op h = decide (0 ≤ toS32 (h.r (_RS op))) := by
        unfold relBranchRITaken
        rw [h16]
      rw [hL, hT]
      exact ⟨negated_RSZero_dispatch x op .CC_L true _ j _ y h hin hpc hflags hD
        (by rw [holds_L_cmp0 _ ha, not_decide_lt]; simp), .CC_L, hD⟩

theorem h1_regs (k : Nat) : h1.r k < U32 := by
  show (if k = 1 then 7 else if k = 2 then 9 else 0) < 4294967296
  split
  · decide
  · split <;> decide

/-- C11 at a concrete input: `beql $1, $0, +8` at 0x08804000 with `$1 = 7`, over a
delay slot that writes `$2`; the condition fails, the run resumes at pc + 8 and `$2`
keeps its value 9. -/
theorem C11_jump_on_negated_condition_witness :
    j0.js.inDelaySlot = false ∧ x0.keepsPC ∧
      (∀ h2 : Host, (yWriteR2.delaySlotRun true h2).flags = h2.flags) ∧
      (∀ k, h1.r k < U32) ∧ h1.r 0 = 0 ∧
      0x50200002 >>> 26 ∈ [4, 5, 6, 7, 20, 21, 22, 23] ∧
      relBranchTaken 0x50200002 h1 = false ∧ relBranchLikely 0x50200002 = true ∧
      NegatedCondition (relBranchTaken 0x50200002 h1) (relBranchLikely 0x50200002)
        (branchTargetSpec j0.js.compilerPC 0x50200002) (u32add j0.js.compilerPC 8) h1
        (newCode j0 (Comp_RelBranch x0 0x50200002 j0))
        (exec yWriteR2 none (newCode j0 (Comp_RelBranch x0 0x50200002 j0)) h1) ∧
      (exec yWriteR2 none (newCode j0 (Comp_RelBranch x0 0x50200002 j0)) h1).2.dest
        = some (j0.js.compilerPC + 8) ∧
      (exec yWriteR2 none (newCode j0 (Comp_RelBranch x0 0x50200002 j0)) h1).2.host.r 2 = 9 :=
  ⟨rfl, x0_keepsPC, fun _ => rfl, h1_regs, rfl, by decide, by decide, by decide,
    ((C11_jump_on_negated_condition x0 0x50200002 j0 yWriteR2 h1 rfl x0_keepsPC
      (fun _ => rfl) h1_regs rfl).1 (by decide)).1,
    by decide, by decide⟩

end MIPSComp
namespace MemArena

/-! ## Lemmas on the memory arena -/

theorem shmOpens_succ (n : Nat) :
    shmOpens (n + 1) = shmOpens n ++ [.shm_open (ram_temp_filename n)] := by
  simp [shmOpens, List.range_succ]

/-- The loop when every candidate from `i` on fails. -/
theorem shmLoop_fail (os : OS) :
    ∀ (n i : Nat) (a : Arena),
      (∀ k, i ≤ k → k < i + (n + 1) → os.shm_open (ram_temp_filename k) < 0) →
      (shmLoop os (n + 1) i a).2 = false ∧ (shmLoop os (n + 1) i a).1.fd < 0 ∧
        (shmLoop os (n + 1) i a).1.ram_temp_file = a.ram_temp_file ∧
        (shmLoop os (n + 1) i a).1.calls =
          a.calls ++ (List.range' i (n + 1)).map fun k => .shm_open (ram_temp_filename k) := by
  intro n
  induction n with
  | zero =>
    intro i a hf
    have h0 : ¬ 0 ≤ os.shm_open (ram_temp_filename i) := by
      have := hf i (le_refl _) (by omega)
      omega
    simp [shmLoop, Arena.call, h0]
    have := hf i (le_refl _) (by omega)
    omega
  | succ n ih =>
    intro i a hf
    have h0 : ¬ 0 ≤ os.shm_open (ram_temp_filename i) := by
      have := hf i (le_refl _) (by omega)
      omega
    have hrec := ih (i + 1)
      { a.call (.shm_open (ram_temp_filename i)) with fd := os.shm_open (ram_temp_filename i) }
      (fun k h1 h2 => hf k (by omega) (by omega))
    rw [shmLoop]
    simp only [h0, if_false]
    refine ⟨hrec.1, hrec.2.1, hrec.2.2.1, ?_⟩
    rw [hrec.2.2.2]
    simp [Arena.call, List.range'_succ]

/-- The loop when candidate `i + m` is the first that opens. -/
theorem shmLoop_ok (os : OS) :
    ∀ (m n i : Nat) (a : Arena), m < n →
      (∀ k, i ≤ k → k < i + m → os.shm_open (ram_temp_filename k) < 0) →
      0 ≤ os.shm_open (ram_temp_filename (i + m)) →
      (shmLoop os n i a).2 = true ∧
        (shmLoop os n i a).1.fd = os.shm_open (ram_temp_filename (i + m)) ∧
        (shmLoop os n i a).1.ram_temp_file = a.ram_temp_file ∧
        (shmLoop os n i a).1.calls =
          a.calls ++ ((List.range' i (m + 1)).map fun k => .shm_open (ram_temp_filename k)) ++
            [.shm_unlink (ram_temp_filename (i + m))] := by
  intro m
  induction m with
  | zero =>
    intro n i a hn _ hok
    obtain ⟨n, rfl⟩ : ∃ n2, n = n2 + 1 := ⟨n - 1, by omega⟩
    simp only [Nat.add_zero] at hok
    by_cases hu : os.shm_unlink (ram_temp_filename i) = 0 <;>
      simp [shmLoop, hok, hu, Arena.call, Arena.say]
  | succ m ih =>
    intro n i a hn hf hok
    obtain ⟨n, rfl⟩ : ∃ n2, n = n2 + 1 := ⟨n - 1, by omega⟩
    have h0 : ¬ 0 ≤ os.shm_open (ram_temp_filename i) := by
      have := hf i (le_refl _) (by omega)
      omega
    have hrec := ih n (i + 1)
      { a.call (.shm_open (ram_temp_filename i)) with fd := os.shm_open (ram_temp_filename i) }
      (by omega) (fun k h1 h2 => hf k (by omega) (by omega))
      (by rwa [show i + 1 + m = i + (m + 1) by omega])
    rw [shmLoop]
    simp only [h0, if_false]
    rw [show i + 1 + m = i + (m + 1) by omega] at hrec
    refine ⟨hrec.1, hrec.2.1, hrec.2.2.1, ?_⟩
    rw [hrec.2.2.2]
    simp [Arena.call, List.range'_succ]

theorem shmOpens_eq (n : Nat) :
    shmOpens n = (List.range' 0 n).map fun k => .shm_open (ram_temp_filename k) := by
  simp [shmOpens, List.range_eq_range']

/-- If some candidate opens, there is a first one. -/
theorem first_ok (os : OS) (n : Nat)
    (h : ¬ ∀ i, i < n → os.shm_open (ram_temp_filename i) < 0) :
    ∃ m, m < n ∧ (∀ k, k < m → os.shm_open (ram_temp_filename k) < 0) ∧
      0 ≤ os.shm_open (ram_temp_filename m) := by
  induction n with
  | zero => exact absurd (fun i hi => absurd hi (Nat.not_lt_zero i)) h
  | succ n ih =>
    by_cases hn : ∀ i, i < n → os.shm_open (ram_temp_filename i) < 0
    · refine ⟨n, by omega, hn, ?_⟩
      by_contra hlt
      apply h
      intro i hi
      by_cases hin : i < n
      · exact hn i hin
      · have : i = n := by omega
        subst this
        omega
    · obtain ⟨m, hm, hf, hok⟩ := ih hn
      exact ⟨m, by omega, hf, hok⟩

/-- The run of `GrabMemSpace` when candidate `m` is the first shared-memory name that
opens. -/
theorem grab_shm (os : OS) (size : Nat) (a : Arena) (m : Nat) (hm : m < 256)
    (hf : ∀ k, k < m → os.shm_open (ram_temp_filename k) < 0)
    (hok : 0 ≤ os.shm_open (ram_temp_filename m)) :
    (GrabMemSpace os size a).1 = true ∧
      (GrabMemSpace os size a).2.fd = os.shm_open (ram_temp_filename m) ∧
      (GrabMemSpace os size a).2.calls =
        a.calls ++ shmOpens (m + 1) ++
          [.shm_unlink (ram_temp_filename m),
            .ftruncate (os.shm_open (ram_temp_filename m)) size] := by
  have hL := shmLoop_ok os m 256 0 a hm (fun k _ h2 => hf k (by omega)) (by simpa using hok)
  simp only [Nat.zero_add] at hL
  rw [← shmOpens_eq] at hL
  unfold GrabMemSpace
  generalize shmLoop os 256 0 a = L at hL ⊢
  obtain ⟨⟨fd1, rtf1, calls1, log1⟩, is_shm⟩ := L
  obtain ⟨h1, h2, h3, h4⟩ := hL
  simp only at h1 h2 h3 h4
  subst h1 h2 h3 h4
  have hn : ¬ os.shm_open (ram_temp_filename m) < 0 := by omega
  by_cases ht : os.ftruncate (os.shm_open (ram_temp_filename m)) size = 0 <;>
    simp [hn, ht, Arena.call, Arena.say]

/-- The state after the loop when no shared-memory name opens. -/
theorem grab_loop_fail (os : OS) (a : Arena)
    (hall : ∀ i, i < 256 → os.shm_open (ram_temp_filename i) < 0) :
    (shmLoop os 256 0 a).2 = false ∧ (shmLoop os 256 0 a).1.fd < 0 ∧
      (shmLoop os 256 0 a).1.ram_temp_file = a.ram_temp_file ∧
      (shmLoop os 256 0 a).1.calls = a.calls ++ shmOpens 256 := by
  have hL := shmLoop_fail os 255 0 a (fun k _ h2 => hall k (by omega))
  rw [← shmOpens_eq] at hL
  exact hL

/-- The run of `GrabMemSpace` when no shared-memory name opens and the file under
/dev/shm does. -/
theorem grab_tmpfs (os : OS) (size : Nat) (a : Arena)
    (hall : ∀ i, i < 256 → os.shm_open (ram_temp_filename i) < 0)
    (hex : os.Exists tmpfs_location = true) (hok : 0 ≤ os.open_tmpfs) :
    (GrabMemSpace os size a).1 = true ∧ (GrabMemSpace os size a).2.fd = os.open_tmpfs ∧
      (GrabMemSpace os size a).2.calls =
        a.calls ++ shmOpens 256 ++
          [.Exists tmpfs_location, .openFile tmpfs_ram_temp_file, .unlink tmpfs_ram_temp_file,
            .ftruncate os.open_tmpfs size] := by
  have hL := grab_loop_fail os a hall
  unfold GrabMemSpace
  generalize shmLoop os 256 0 a = L at hL ⊢
  obtain ⟨⟨fd1, rtf1, calls1, log1⟩, is_shm⟩ := L
  obtain ⟨h1, h2, h3, h4⟩ := hL
  simp only at h1 h2 h3 h4
  subst h1 h3 h4
  have hn : ¬ os.open_tmpfs < 0 := by omega
  by_cases ht : os.ftruncate os.open_tmpfs size = 0 <;>
    by_cases hu : os.unlink tmpfs_ram_temp_file = 0 <;>
      simp [hn, hok, h2, ht, hu, hex, Arena.call, Arena.say]

/-- The run of `GrabMemSpace` when neither a shared-memory name nor the file under
/dev/shm opens: the answer of the last `open` decides. -/
theorem grab_temp (os : OS) (size : Nat) (a : Arena)
    (hall : ∀ i, i < 256 → os.shm_open (ram_temp_filename i) < 0)
    (hno : os.Exists tmpfs_location = false ∨ os.open_tmpfs < 0) :
    (GrabMemSpace os size a).1 = decide (0 ≤ os.open_ram_temp a.ram_temp_file) ∧
      (GrabMemSpace os size a).2.fd = os.open_ram_temp a.ram_temp_file ∧
      (GrabMemSpace os size a).2.calls =
        a.calls ++ shmOpens 256 ++
          .Exists tmpfs_location ::
            (if os.Exists tmpfs_location = true then [.openFile tmpfs_ram_temp_file] else []) ++
          .openFile a.ram_temp_file ::
            (if 0 ≤ os.open_ram_temp a.ram_temp_file then
              [.unlink a.ram_temp_file,
                .ftruncate (os.open_ram_temp a.ram_temp_file) size]
            else []) := by
  have hL := grab_loop_fail os a hall
  unfold GrabMemSpace
  generalize shmLoop os 256 0 a = L at hL ⊢
  obtain ⟨⟨fd1, rtf1, calls1, log1⟩, is_shm⟩ := L
  obtain ⟨h1, h2, h3, h4⟩ := hL
  simp only at h1 h2 h3 h4
  subst h1 h3 h4
  by_cases hex : os.Exists tmpfs_location = true
  · have ht : os.open_tmpfs < 0 := by
      rcases hno with h | h
      · rw [hex] at h; cases h
      · exact h
    have ht2 : ¬ 0 ≤ os.open_tmpfs := by omega
    by_cases hok : 0 ≤ os.open_ram_temp a.ram_temp_file
    · have hn : ¬ os.open_ram_temp a.ram_temp_file < 0 := by omega
      by_cases hf : os.ftruncate (os.open_ram_temp a.ram_temp_file) size = 0 <;>
        by_cases hu : os.unlink a.ram_temp_file = 0 <;>
          simp [h2, hex, ht, ht2, hok, hn, hf, hu, Arena.call, Arena.say]
    · have hn : os.open_ram_temp a.ram_temp_file < 0 := by omega
      simp [h2, hex, ht, ht2, hok, hn, Arena.call, Arena.say]
  · by_cases hok : 0 ≤ os.open_ram_temp a.ram_temp_file
    · have hn : ¬ os.open_ram_temp a.ram_temp_file < 0 := by omega
      by_cases hf : os.ftruncate (os.open_ram_temp a.ram_temp_file) size = 0 <;>
        by_cases hu : os.unlink a.ram_temp_file = 0 <;>
          simp [h2, hex, hok, hn, hf, hu, Arena.call, Arena.say]
    · have hn : os.open_ram_temp a.ram_temp_file < 0 := by omega
      simp [h2, hex, hok, hn, Arena.call, Arena.say]

/-- When `GrabMemSpace` fails. -/
theorem grab_false_iff (os : OS) (size : Nat) (a : Arena) :
    (GrabMemSpace os size a).1 = false ↔
      (∀ i, i < 256 → os.shm_open (ram_temp_filename i) < 0) ∧
        (os.Exists tmpfs_location = false ∨ os.open_tmpfs < 0) ∧
        os.open_ram_temp a.ram_temp_file < 0 := by
  by_cases hall : ∀ i, i < 256 → os.shm_open (ram_temp_filename i) < 0
  · by_cases hno : os.Exists tmpfs_location = false ∨ os.open_tmpfs < 0
    · rw [(grab_temp os size a hall hno).1]
      simp only [decide_eq_false_iff_not, not_le]
      exact ⟨fun h => ⟨hall, hno, h⟩, fun h => h.2.2⟩
    · have hex : os.Exists tmpfs_location = true := by
        cases h : os.Exists tmpfs_location
        · exact absurd (Or.inl h) hno
        · rfl
      have hok : 0 ≤ os.open_tmpfs := by
        by_contra h
        exact hno (Or.inr (by omega))
      rw [(grab_tmpfs os size a hall hex hok).1]
      exact ⟨fun h => (by cases h), fun h => absurd h.2.1 hno⟩
  · obtain ⟨m, hm, hf, hok⟩ := first_ok os 256 hall
    rw [(grab_shm os size a m hm hf hok).1]
    exact ⟨fun h => (by cases h), fun h => absurd h.1 hall⟩


/-- C8. GrabMemSpace returns false exactly when shm_open fails for all 256 names
/ppsspp_0.ram .. /ppsspp_255.ram, the file under /dev/shm is not tried (the location is
absent) or fails to open, and the plain temporary file fails to open. Otherwise it
returns true and `fd` is the descriptor of the first source that opened, in the order
shared memory, /dev/shm, temporary file; the calls made show that nothing after that
source is tried; and the answer of ftruncate does not change the result. -/
theorem C8_grab_fails_only_if_all_fail (os : OS) (size : Nat) (a : Arena) :
    ((GrabMemSpace os size a).1 = false ↔
        (∀ i, i < 256 → os.shm_open (ram_temp_filename i) < 0) ∧
          (os.Exists tmpfs_location = false ∨ os.open_tmpfs < 0) ∧
          os.open_ram_temp a.ram_temp_file < 0) ∧
      (∀ m, m < 256 → (∀ k, k < m → os.shm_open (ram_temp_filename k) < 0) →
        0 ≤ os.shm_open (ram_temp_filename m) →
        (GrabMemSpace os size a).1 = true ∧
          (GrabMemSpace os size a).2.fd = os.shm_open (ram_temp_filename m) ∧
          (GrabMemSpace os size a).2.calls =
            a.calls ++ shmOpens (m + 1) ++
              [.shm_unlink (ram_temp_filename m),
                .ftruncate (os.shm_open (ram_temp_filename m)) size]) ∧
      ((∀ i, i < 256 → os.shm_open (ram_temp_filename i) < 0) →
        os.Exists tmpfs_location = true → 0 ≤ os.open_tmpfs →
        (GrabMemSpace os size a).1 = true ∧ (GrabMemSpace os size a).2.fd = os.open_tmpfs ∧
          (GrabMemSpace os size a).2.calls =
            a.calls ++ shmOpens 256 ++
              [.Exists tmpfs_location, .openFile tmpfs_ram_temp_file,
                .unlink tmpfs_ram_temp_file, .ftruncate os.open_tmpfs size]) ∧
      ((∀ i, i < 256 → os.shm_open (ram_temp_filename i) < 0) →
        (os.Exists tmpfs_location = false ∨ os.open_tmpfs < 0) →
        0 ≤ os.open_ram_temp a.ram_temp_file →
        (GrabMemSpace os size a).1 = true ∧
          (GrabMemSpace os size a).2.fd = os.open_ram_temp a.ram_temp_file ∧
          (GrabMemSpace os size a).2.calls =
            a.calls ++ shmOpens 256 ++
              .Exists tmpfs_location ::
                (if os.Exists tmpfs_location = true then [.openFile tmpfs_ram_temp_file]
                  else []) ++
              [.openFile a.ram_temp_file, .unlink a.ram_temp_file,
                .ftruncate (os.open_ram_temp a.ram_temp_file) size]) ∧
      (∀ f : Int → Nat → Int,
        (GrabMemSpace { os with ftruncate := f } size a).1 = (GrabMemSpace os size a).1) := by
  refine ⟨grab_false_iff os size a, fun m hm hf hok => grab_shm os size a m hm hf hok,
    fun hall hex hok => grab_tmpfs os size a hall hex hok, ?_, ?_⟩
  · intro hall hno hok
    have h := grab_temp os size a hall hno
    refine ⟨by simp [h.1, hok], h.2.1, ?_⟩
    rw [h.2.2]
    simp [hok]
  · intro f
    have h1 := grab_false_iff { os with ftruncate := f } size a
    have h2 := grab_false_iff os size a
    simp only at h1
    have h3 : (GrabMemSpace { os with ftruncate := f } size a).1 = false ↔
        (GrabMemSpace os size a).1 = false := h1.trans h2.symm
    cases hb : (GrabMemSpace os size a).1 <;>
      cases hc : (GrabMemSpace { os with ftruncate := f } size a).1 <;> simp_all

/-- C8 at a concrete input: only the plain temporary file opens (descriptor 5) and
ftruncate fails; GrabMemSpace still returns true with that descriptor. -/
theorem C8_grab_fails_only_if_all_fail_witness :
    (∀ i, i < 256 → osTmpOnly.shm_open (ram_temp_filename i) < 0) ∧
      (osTmpOnly.Exists tmpfs_location = false ∨ osTmpOnly.open_tmpfs < 0) ∧
      0 ≤ osTmpOnly.open_ram_temp a0.ram_temp_file ∧
      osTmpOnly.ftruncate 5 4096 ≠ 0 ∧
      (GrabMemSpace osTmpOnly 4096 a0).1 = true ∧ (GrabMemSpace osTmpOnly 4096 a0).2.fd = 5 :=
  ⟨fun _ _ => (by decide : (-1 : Int) < 0), Or.inl rfl, by decide, by decide,
    ((C8_grab_fails_only_if_all_fail osTmpOnly 4096 a0).2.2.2.1 (fun _ _ => (by decide : (-1 : Int) < 0))
      (Or.inl rfl) (by decide)).1,
    ((C8_grab_fails_only_if_all_fail osTmpOnly 4096 a0).2.2.2.1 (fun _ _ => (by decide : (-1 : Int) < 0))
      (Or.inl rfl) (by decide)).2.1⟩

/-- C9. CreateView asks mmap for the given size at the given offset of the descriptor
`fd`, readable, writable and shared, with MAP_FIXED exactly when base is not null; it
returns null exactly when mmap answers MAP_FAILED and otherwise the address mmap
answered; `fd` is unchanged. (A successful mmap never answers the null address.) -/
theorem C9_create_view (os : OS) (bsd : Bool) (offset : Int) (size base : Nat) (a : Arena)
    (hnn : os.mmap base size (PROT_READ ||| PROT_WRITE) (viewFlags bsd base) a.fd offset ≠ 0) :
    (CreateView os bsd offset size base a).2.calls =
        a.calls ++ [.mmap base size (PROT_READ ||| PROT_WRITE) (viewFlags bsd base) a.fd offset] ∧
      (PROT_READ ||| PROT_WRITE) &&& PROT_READ = PROT_READ ∧
      (PROT_READ ||| PROT_WRITE) &&& PROT_WRITE = PROT_WRITE ∧
      viewFlags bsd base &&& MAP_SHARED = MAP_SHARED ∧
      (viewFlags bsd base &&& MAP_FIXED = MAP_FIXED ↔ base ≠ 0) ∧
      ((CreateView os bsd offset size base a).1 = 0 ↔
        os.mmap base size (PROT_READ ||| PROT_WRITE) (viewFlags bsd base) a.fd offset
          = MAP_FAILED) ∧
      (os.mmap base size (PROT_READ ||| PROT_WRITE) (viewFlags bsd base) a.fd offset
          ≠ MAP_FAILED →
        (CreateView os bsd offset size base a).1 =
          os.mmap base size (PROT_READ ||| PROT_WRITE) (viewFlags bsd base) a.fd offset) ∧
      (CreateView os bsd offset size base a).2.fd = a.fd := by
  refine ⟨?_, by decide, by decide, ?_, ?_, ?_, ?_, ?_⟩
  · by_cases hf : os.mmap base size (PROT_READ ||| PROT_WRITE) (viewFlags bsd base) a.fd offset
        = MAP_FAILED <;> simp [CreateView, hf, Arena.call, Arena.say]
  · by_cases hb : base = 0 <;> cases bsd <;> simp [viewFlags, hb] <;> decide
  · by_cases hb : base = 0 <;> cases bsd <;> simp [viewFlags, hb] <;> decide
  · unfold CreateView
    by_cases hf : os.mmap base size (PROT_READ ||| PROT_WRITE) (viewFlags bsd base) a.fd offset
        = MAP_FAILED
    · simp [hf]
    · simp [hf, hnn]
  · intro hf
    simp [CreateView, hf]
  · by_cases hf : os.mmap base size (PROT_READ ||| PROT_WRITE) (viewFlags bsd base) a.fd offset
        = MAP_FAILED <;> simp [CreateView, hf, Arena.call, Arena.say]

/-- C9 at a concrete input: a view of 4096 bytes at an address the system chooses. -/
theorem C9_create_view_witness :
    osTmpOnly.mmap 0 4096 (PROT_READ ||| PROT_WRITE) (viewFlags false 0) 5 0 ≠ 0 ∧
      (CreateView osTmpOnly false 0 4096 0 { a0 with fd := 5 }).1 = 0x7f0000000000 ∧
      ((CreateView osTmpOnly false 0 4096 0 { a0 with fd := 5 }).1 = 0 ↔
        osTmpOnly.mmap 0 4096 (PROT_READ ||| PROT_WRITE) (viewFlags false 0) 5 0
          = MAP_FAILED) :=
  ⟨by decide, by decide,
    (C9_create_view osTmpOnly false 0 4096 0 { a0 with fd := 5 } (by decide)).2.2.2.2.2.1⟩

end MemArena
